import Mathlib

/-!
Shallow embedding of the core control-plane logic of the rtl8367d (rtl8365mb)
Ethernet switch driver: the indirect table-access engine, the dual-table VLAN
reconciler, the MIB statistics engine and the interrupt demultiplexer.

The register transport is modelled at two levels.

The first model (the `Chip` state) is a reliable-transport model: the bus
never fails, the hardware busy flags always read clear between operations
(quiescent hardware), and `regmap` bulk operations of zero count are no-ops.
Register writes additionally append an event to a trace so that write-ordering
properties can be stated.  Status registers read by busy polls are treated as
hardware status, not stored state.

The second model (`Xport`) is a fallible stateless transport: every read and
write can fail with a Linux errno, and a poll whose predicate rejects the
first read value times out (the value never changes, so the bounded poll of
the source returns -ETIMEDOUT).  It is used for the PHY indirect-access
functions, the MIB counter reads, the statistics batch and the interrupt
handler, whose claims are about error behaviour.

Errnos are the negated Linux values: EINVAL = 22, EIO = 5, ETIMEDOUT = 110,
ENOSPC = 28, ENOMEM = 12, EOPNOTSUPP = 95, ENOENT = 2.
-/

namespace Rtl8365mb

/-- Bitwise and-not on Nat (the C expression old & ~mask), in a form the
kernel evaluates: a AND NOT b equals a XOR (a AND b) bitwise. -/
def ldiffN (a b : Nat) : Nat := a ^^^ (a &&& b)

/-- Linux regmap_update_bits value computation: keep the bits of `old` outside
`mask` and take the bits of `v` inside `mask`. -/
def updBits (old mask v : Nat) : Nat :=
  ldiffN old mask ||| (v &&& mask)

/-- Error kinds of the specification, section 7. -/
inductive ErrKind where
  | invalidArgument
  | resourceExhausted
  | timeout
  | io
  | unsupported
  | notFound
  | other
deriving DecidableEq, Repr

/-- Classification of Linux errnos into the error kinds of the specification:
-EINVAL is invalid-argument, -ENOSPC and -ENOMEM are resource-exhausted,
-ETIMEDOUT is timeout, -EIO is I/O, -EOPNOTSUPP is unsupported, -ENOENT is
not-found. -/
def errKind (e : Int) : ErrKind :=
  if e = -22 then .invalidArgument
  else if e = -28 ∨ e = -12 then .resourceExhausted
  else if e = -110 then .timeout
  else if e = -5 then .io
  else if e = -95 then .unsupported
  else if e = -2 then .notFound
  else .other

/-- Chip state for the reliable-transport model: the direct 16-bit register
space (`regs`) and the contents of the indexed hardware tables behind the
table-access engine (`mem`, as table id, row index, word position). -/
structure Chip where
  regs : Nat → Nat
  mem : Nat → Nat → Nat → Nat

/-- Register-write events recorded in the trace: a direct register write at
an address, or a table-engine operation committed by writing the control
register (`commit t op`, with op 1 = write, 0 = read). -/
inductive Ev where
  | regw (addr : Nat)
  | commit (table : Nat) (op : Nat)
deriving DecidableEq, Repr

/-- Write one direct register. -/
def wreg (s : Chip) (a v : Nat) : Chip :=
  { s with regs := fun x => if x = a then v else s.regs x }

/-- regmap_bulk_write: write the words of `l` to consecutive register
addresses starting at `base`, recording one event per register. -/
def bulkWrite (s : Chip) (base : Nat) : List Nat → Chip × List Ev
  | [] => (s, [])
  | v :: vs =>
    let s1 := wreg s base (v % 65536)
    let p := bulkWrite s1 (base + 1) vs
    (p.1, .regw base :: p.2)

/-- Table ids, from enum rtl8365mb_table: ACL_RULE = 1, ACL_ACT = 2,
CVLAN = 3, L2 = 4, IGMP_GROUP = 5; RTL8365MB_NUM_TABLES = 6. -/
def RTL8365MB_NUM_TABLES : Nat := 6

def RTL8365MB_TABLE_CVLAN : Nat := 3

/-- enum rtl8365mb_table_op. -/
def RTL8365MB_TABLE_READ : Nat := 0

def RTL8365MB_TABLE_WRITE : Nat := 1

/-- The rtl8365mb_table_entry_size array: entry 0 is not designated (so 0),
ACL_RULE, ACL_ACT, L2 and IGMP_GROUP are not yet modeled (0), CVLAN is
3 words wide. -/
def rtl8365mb_table_entry_size : List Nat := [0, 0, 0, 3, 0, 0]

/-- Hardware effect of writing the table control register: a write op copies
the staged words 0x510.. into the addressed table row (over the row width of
the table), a read op copies the addressed row into the read-data registers
0x520... -/
def commitEffect (s : Chip) (table idx op vsize : Nat) : Chip :=
  if op = RTL8365MB_TABLE_WRITE then
    { s with mem := fun t i w =>
        if t = table ∧ i = idx ∧ w < vsize then s.regs (0x510 + w) else s.mem t i w }
  else
    { s with regs := fun a =>
        if 0x520 ≤ a ∧ a < 0x520 + vsize then s.mem table idx (a - 0x520) else s.regs a }

/-- rtl8365mb_table_access, reliable-transport model.  Returns the C return
value, the (possibly updated) caller buffer, the new chip state, and the
trace of register writes.  The busy polls of the read path always succeed in
this model. -/
def rtl8365mb_table_access (table op idx : Nat) (val : List Nat) (s : Chip) :
    Int × List Nat × Chip × List Ev :=
  if RTL8365MB_NUM_TABLES ≤ table then (-22, val, s, [])
  else if ¬ idx < 2 ^ 14 then (-22, val, s, [])
  else
    let vsize := rtl8365mb_table_entry_size.getD table 0
    let p1 :=
      if op = RTL8365MB_TABLE_WRITE then
        let cnt := if vsize = 10 then 9 else vsize
        let pa := bulkWrite s 0x510 (val.take cnt)
        if vsize = 10 then
          (wreg pa.1 0x519 (updBits (pa.1.regs 0x519) 0xF (val.getD 9 0)),
           pa.2 ++ [.regw 0x519])
        else pa
      else (s, [])
    let s2 := wreg p1.1 0x501 (idx &&& 0x3FFF)
    let s3 := wreg s2 0x500 (updBits (s2.regs 0x500) 0xF (((op <<< 3) &&& 0x8) ||| (table &&& 0x7)))
    let s4 := commitEffect s3 table idx op vsize
    let evs := p1.2 ++ [.regw 0x501, .commit table op]
    if op = RTL8365MB_TABLE_READ then
      let out0 := (List.range vsize).map (fun w => s4.regs (0x520 + w))
      let out := if vsize = 10 then out0.take 9 ++ [out0.getD 9 0 &&& 0xF] else out0
      (0, out ++ val.drop vsize, s4, evs)
    else (0, val, s4, evs)

/-- VLAN limits: RTL8365MB_MAX_4K_VID and RTL8365MB_MAX_MC_VID. -/
def RTL8365MB_MAX_4K_VID : Nat := 0x0FFF

def RTL8365MB_MAX_MC_VID : Nat := 0x1FFF

/-- RTL8365MB_VLAN_MC_CONF_REG: base 0x0728, 4 registers per entry. -/
def mcConfReg (idx : Nat) : Nat := 0x728 + 4 * idx

/-- RTL8365MB_VLAN_PVID_CTRL_REG: base 0x0700, two ports per register. -/
def pvidCtrlReg (port : Nat) : Nat := 0x700 + port / 2

/-- RTL8365MB_VLAN_PVID_CTRL_OFFSET: 8-bit field per port. -/
def pvidCtrlOff (port : Nat) : Nat := (port % 2) * 8

/-- RTL8365MB_VLAN_ACCEPT_FRAME_TYPE_REG: base 0x07aa, eight ports per
register. -/
def aftReg (port : Nat) : Nat := 0x7AA + port / 8

/-- RTL8365MB_VLAN_ACCEPT_FRAME_TYPE_OFFSET: 2-bit field per port. -/
def aftOff (port : Nat) : Nat := (port % 8) * 2

/-- Port PVID slot index as the driver extracts it:
(data & PVID_CTRL_MASK(port)) >> PVID_CTRL_OFFSET(port). -/
def pvidIdxOf (s : Chip) (port : Nat) : Nat :=
  (s.regs (pvidCtrlReg port) &&& (0xFF <<< pvidCtrlOff port)) >>> pvidCtrlOff port

/-- Port accepted-frame-type as the driver extracts it (0 = any frame,
1 = tagged only, 2 = untagged only). -/
def aftOf (s : Chip) (port : Nat) : Nat :=
  (s.regs (aftReg port) &&& (0x3 <<< aftOff port)) >>> aftOff port

/-- The EVID field (GENMASK(12,0) of the fourth word) of VLAN MC entry `i`. -/
def mcEvid (s : Chip) (i : Nat) : Nat :=
  s.regs (mcConfReg i + 3) &&& 0x1FFF

/-- The raw four-word buffer of VLAN MC entry `i` (regmap_bulk_read). -/
def mcEntry (s : Chip) (i : Nat) : List Nat :=
  [s.regs (mcConfReg i), s.regs (mcConfReg i + 1),
   s.regs (mcConfReg i + 2), s.regs (mcConfReg i + 3)]

/-- The scan loop of rtl8365mb_vlanmc_set: starting at slot `i` with `fuel`
slots left to visit, return the first slot whose EVID equals `vid` (or 32 if
none) together with the first slot whose EVID is 0, if any was seen. -/
def mcScanGo (s : Chip) (vid : Nat) : Nat → Nat → Option Nat → Nat × Option Nat
  | i, 0, fu => (i, fu)
  | i, fuel + 1, fu =>
    let evid := mcEvid s i
    if evid = vid then (i, fu)
    else mcScanGo s vid (i + 1) fuel (if evid = 0 ∧ fu = none then some i else fu)

/-- The scan of slots 1..31 (slot 0 is reserved). -/
def mcScan (s : Chip) (vid : Nat) : Nat × Option Nat :=
  mcScanGo s vid 1 31 none

/-- The slot the operation resolves to: the matching slot if the scan found
one; otherwise, only when the PVID flag is set, the first unused slot. -/
def mcResolvedIdx (s : Chip) (vid : Nat) (pvidf : Bool) : Option Nat :=
  let p := mcScan s vid
  if p.1 ≠ 32 then some p.1
  else if pvidf = false then none
  else p.2

/-- rtl8365mb_buf_vlan4k member field: low 8 bits from word 0 plus
GENMASK(2,0) of word 2 shifted up by 8. -/
def vlan4kMemberOfBuf (buf : List Nat) : Nat :=
  (buf.getD 0 0 &&& 0xFF) ||| ((buf.getD 2 0 &&& 0x7) <<< 8)

/-- rtl8365mb_buf_vlan4k untag field: GENMASK(15,8) of word 0 plus
GENMASK(5,3) of word 2 shifted up by 8. -/
def vlan4kUntagOfBuf (buf : List Nat) : Nat :=
  ((buf.getD 0 0 &&& 0xFF00) >>> 8) ||| (((buf.getD 2 0 &&& 0x38) >>> 3) <<< 8)

/-- The member bitmap of the by-ID (4K) table entry for `vid`, as stored in
the CVLAN table memory. -/
def member4kOf (s : Chip) (vid : Nat) : Nat :=
  vlan4kMemberOfBuf [s.mem RTL8365MB_TABLE_CVLAN vid 0,
    s.mem RTL8365MB_TABLE_CVLAN vid 1, s.mem RTL8365MB_TABLE_CVLAN vid 2]

/-- The untag bitmap of the by-ID (4K) table entry for `vid`. -/
def untag4kOf (s : Chip) (vid : Nat) : Nat :=
  vlan4kUntagOfBuf [s.mem RTL8365MB_TABLE_CVLAN vid 0,
    s.mem RTL8365MB_TABLE_CVLAN vid 1, s.mem RTL8365MB_TABLE_CVLAN vid 2]

/-- The write-back tail of rtl8365mb_vlanmc_set, after the new entry buffer
has been computed: read the port PVID slot and accepted-frame-type, write the
four entry registers, then apply the PVID and frame-type side effects in the
order of the source (PVID register update inside the add branch, then the
accepted-frame-type update). -/
def vlanmcWriteBack (port : Nat) (pvidf inc : Bool) (idx : Nat)
    (newEntry : List Nat) (s : Chip) : Chip × List Ev :=
  let pvididx := pvidIdxOf s port
  let afr := aftOf s port
  let pw := bulkWrite s (mcConfReg idx) newEntry
  let afr2 :=
    if inc = false then
      (if afr = 0 ∧ pvididx = idx then ((1 : Nat), true) else (afr, false))
    else if pvidf = true then
      (if afr = 1 then ((0 : Nat), true) else (afr, false))
    else (afr, false)
  let pp :=
    if inc = true ∧ pvidf = true ∧ idx ≠ pvididx then
      (wreg pw.1 (pvidCtrlReg port)
        (updBits (pw.1.regs (pvidCtrlReg port)) (0xFF <<< pvidCtrlOff port)
          ((idx <<< pvidCtrlOff port) &&& (0xFF <<< pvidCtrlOff port))),
       [Ev.regw (pvidCtrlReg port)])
    else (pw.1, [])
  let pa :=
    if afr2.2 then
      (wreg pp.1 (aftReg port)
        (updBits (pp.1.regs (aftReg port)) (0x3 <<< aftOff port)
          ((afr2.1 <<< aftOff port) &&& (0x3 <<< aftOff port))),
       [Ev.regw (aftReg port)])
    else (pp.1, [])
  (pa.1, pw.2 ++ pp.2 ++ pa.2)

/-- The new four-word MC entry buffer of rtl8365mb_vlanmc_set: parse the raw
buffer as an MC entry, merge the 4K members (nonzero only for a freshly
allocated slot of a 4K-range VLAN), include or exclude the port, and rebuild;
a delete that leaves no members besides the CPU ports clears the whole entry. -/
def vlanmcNewEntry (port vid : Nat) (inc : Bool) (cpu : Nat)
    (entry : List Nat) (v4kmem : Nat) : List Nat :=
  let member0 := entry.getD 0 0 &&& 0x7FF
  let fid := entry.getD 1 0 &&& 0xF
  let pri := (entry.getD 2 0 &&& 0xE) >>> 1
  let member1 := member0 ||| v4kmem
  let member := if inc then member1 ||| (1 <<< port) else ldiffN member1 (1 <<< port)
  if inc = false ∧ ldiffN member cpu = 0 then [0, 0, 0, 0]
  else [updBits (entry.getD 0 0) 0x7FF member,
        updBits (entry.getD 1 0) 0xF fid,
        updBits (entry.getD 2 0) 0xE (pri <<< 1),
        updBits (entry.getD 3 0) 0x1FFF vid]

/-- The tail of rtl8365mb_vlanmc_set after the slot has been resolved (to
`idx`) and, for a freshly allocated slot of a 4K-range VLAN, the 4K entry has
been read into the entry buffer (`entry`) and parsed (`v4kmem`).  `evPre` is
the trace produced while resolving. -/
def vlanmc_apply (port vid : Nat) (pvidf inc : Bool) (cpu idx : Nat)
    (entry : List Nat) (v4kmem : Nat) (s : Chip) (evPre : List Ev) :
    Int × Chip × List Ev :=
  let p := vlanmcWriteBack port pvidf inc idx
    (vlanmcNewEntry port vid inc cpu entry v4kmem) s
  (0, p.1, evPre ++ p.2)

/-- rtl8365mb_vlanmc_set, reliable-transport model.  `inc` is the include
flag (true for add, false for delete), `pvidf` the BRIDGE_VLAN_INFO_PVID
flag, `cpu` the dsa_cpu_ports mask. -/
def rtl8365mb_vlanmc_set (port vid : Nat) (pvidf inc : Bool) (cpu : Nat)
    (s : Chip) : Int × Chip × List Ev :=
  if RTL8365MB_MAX_MC_VID < vid then (-22, s, [])
  else
    let sc := mcScan s vid
    if sc.1 = 32 then
      if pvidf = false then (0, s, [])
      else if sc.2 = none then (-22, s, [])
      else
        let fuIdx := sc.2.getD 0
        if vid ≤ RTL8365MB_MAX_4K_VID then
          let t := rtl8365mb_table_access RTL8365MB_TABLE_CVLAN
            RTL8365MB_TABLE_READ vid [0, 0, 0, 0] s
          if t.1 ≠ 0 then (t.1, t.2.2.1, t.2.2.2)
          else
            vlanmc_apply port vid pvidf inc cpu fuIdx t.2.1
              (vlan4kMemberOfBuf t.2.1) t.2.2.1 t.2.2.2
        else vlanmc_apply port vid pvidf inc cpu fuIdx [0, 0, 0, 0] 0 s []
    else vlanmc_apply port vid pvidf inc cpu sc.1 (mcEntry s sc.1) 0 s []

/-- rtl8365mb_vlan4k_set, reliable-transport model.  `untagged` is the
BRIDGE_VLAN_INFO_UNTAGGED flag. -/
def rtl8365mb_vlan4k_set (port vid : Nat) (untagged inc : Bool) (s : Chip) :
    Int × Chip × List Ev :=
  if RTL8365MB_MAX_4K_VID < vid then (-22, s, [])
  else
    let t := rtl8365mb_table_access RTL8365MB_TABLE_CVLAN RTL8365MB_TABLE_READ
      vid [0, 0, 0] s
    if t.1 ≠ 0 then (t.1, t.2.2.1, t.2.2.2)
    else
      let out := t.2.1
      let member := vlan4kMemberOfBuf out
      let untag := vlan4kUntagOfBuf out
      let fid := out.getD 1 0 &&& 0xF
      let member2 := if inc then member ||| (1 <<< port) else ldiffN member (1 <<< port)
      let untag2 :=
        if inc = true ∧ untagged = true then untag ||| (1 <<< port)
        else ldiffN untag (1 <<< port)
      let b0 := updBits (updBits (out.getD 0 0) 0xFF (member2 &&& 0xFF))
        0xFF00 ((untag2 &&& 0xFF) <<< 8)
      let b1 := updBits (out.getD 1 0) 0xF fid
      let b2 := updBits (updBits (out.getD 2 0) 0x7 (member2 >>> 8))
        0x38 ((untag2 >>> 8) <<< 3)
      let t2 := rtl8365mb_table_access RTL8365MB_TABLE_CVLAN
        RTL8365MB_TABLE_WRITE vid [b0, b1, b2] t.2.2.1
      (t2.1, t2.2.2.1, t.2.2.2 ++ t2.2.2.2)

/-- rtl8365mb_vlan_add: MC slot update first; on success the 4K update; on a
4K failure the MC update is rolled back and the error returned. -/
def rtl8365mb_vlan_add (port vid : Nat) (untagged pvidf : Bool) (cpu : Nat)
    (s : Chip) : Int × Chip × List Ev :=
  let r1 := rtl8365mb_vlanmc_set port vid pvidf true cpu s
  if r1.1 ≠ 0 then r1
  else
    let r2 := rtl8365mb_vlan4k_set port vid untagged true r1.2.1
    if r2.1 ≠ 0 then
      let r3 := rtl8365mb_vlanmc_set port vid pvidf false cpu r2.2.1
      (r2.1, r3.2.1, r1.2.2 ++ r2.2.2 ++ r3.2.2)
    else (0, r2.2.1, r1.2.2 ++ r2.2.2)

/-- rtl8365mb_vlan_del: 4K update then MC cleanup; the C return value is the
boolean or of the two results, so it is 1 (not an errno) when either step
failed. -/
def rtl8365mb_vlan_del (port vid : Nat) (untagged pvidf : Bool) (cpu : Nat)
    (s : Chip) : Int × Chip × List Ev :=
  let r1 := rtl8365mb_vlan4k_set port vid untagged false s
  let r2 := rtl8365mb_vlanmc_set port vid pvidf false cpu r1.2.1
  ((if r1.1 ≠ 0 ∨ r2.1 ≠ 0 then 1 else 0), r2.2.1, r1.2.2 ++ r2.2.2)

/-- A chip whose registers and table memory read as zero: the post-reset or
freshly initialised state relevant for the concrete scenarios. -/
def freshChip : Chip :=
  { regs := fun _ => 0, mem := fun _ _ _ => 0 }

/-- Rank of a write event in the order claimed by the specification: the
by-ID (4K) table write (the CVLAN write commit) first, then VLAN MC slot
register writes (0x728..0x7A7), then PVID (0x700..0x705) and
accepted-frame-type (0x7AA..0x7AB) register writes.  Other writes (staging,
address and control plumbing, table reads) are unranked. -/
def claimRank : Ev → Option Nat
  | .commit t op => if t = RTL8365MB_TABLE_CVLAN ∧ op = RTL8365MB_TABLE_WRITE then some 0 else none
  | .regw a =>
    if 0x728 ≤ a ∧ a ≤ 0x7A7 then some 1
    else if (0x700 ≤ a ∧ a ≤ 0x705) ∨ (0x7AA ≤ a ∧ a ≤ 0x7AB) then some 2
    else none

/-- Rank of a write event in the order the add path actually uses: MC slot
writes first, then the PVID write, then the accepted-frame-type write, and
the by-ID (4K) table write last. -/
def addRank : Ev → Option Nat
  | .commit t op => if t = RTL8365MB_TABLE_CVLAN ∧ op = RTL8365MB_TABLE_WRITE then some 3 else none
  | .regw a =>
    if 0x728 ≤ a ∧ a ≤ 0x7A7 then some 0
    else if 0x700 ≤ a ∧ a ≤ 0x705 then some 1
    else if 0x7AA ≤ a ∧ a ≤ 0x7AB then some 2
    else none

/-- A list of ranks is monotone (each rank at most the next). -/
def ranksMono : List Nat → Bool
  | [] => true
  | [_] => true
  | a :: b :: t => Nat.ble a b && ranksMono (b :: t)

/-- A trace respects an ordering of write classes when the ranked events
appear with monotone ranks. -/
def writeOrderOK (rank : Ev → Option Nat) (t : List Ev) : Bool :=
  ranksMono (t.filterMap rank)

/-! ### Fallible stateless transport model -/

/-- A fallible, stateless register transport: each read and write either
succeeds or fails with an errno, depending only on the address (and written
value).  Since the transport is stateless, a busy poll whose predicate
rejects the read value can never succeed later. -/
structure Xport where
  read : Nat → Except Int Nat
  write : Nat → Nat → Except Int Unit
  upd : Nat → Nat → Nat → Except Int Unit

/-- regmap_read_poll_timeout over the stateless transport: a read failure is
returned as is; a value rejected by the predicate produces -ETIMEDOUT, since
a stateless transport never returns a different value within the bounded
poll. -/
def readPollTimeout (xp : Xport) (addr : Nat) (cond : Nat → Bool) : Except Int Nat :=
  match xp.read addr with
  | .error e => .error e
  | .ok v => if cond v then .ok v else .error (-110)

/-- rtl8365mb_phy_poll_busy: poll RTL8365MB_INDIRECT_ACCESS_STATUS_REG
(0x1F01) until it reads zero; returns the C int result. -/
def rtl8365mb_phy_poll_busy (xp : Xport) : Int :=
  match readPollTimeout xp 0x1F01 (fun v => v = 0) with
  | .error e => e
  | .ok _ => 0

/-- rtl8365mb_phy_ocp_prepare: set the OCP prefix in GPHY_OCP_MSB_0
(0x1D15, CFG_CPU_OCPADR field GENMASK(11,6)) and write the indirect access
address register (0x1F02). -/
def rtl8365mb_phy_ocp_prepare (xp : Xport) (phy ocp_addr : Nat) : Int :=
  match xp.upd 0x1D15 0xFC0 (((ocp_addr &&& 0xFC00) >>> 10 <<< 6) &&& 0xFC0) with
  | .error e => e
  | .ok _ =>
    let v := 0x2000 ||| ((phy <<< 5) &&& 0xE0) |||
      (((ocp_addr >>> 1) &&& 0x1F)) ||| (((ocp_addr >>> 6) &&& 0xF) <<< 8)
    match xp.write 0x1F02 v with
    | .error e => e
    | .ok _ => 0

/-- rtl8365mb_phy_ocp_read: poll busy, prepare, trigger a read command in the
control register (0x1F00), poll busy again, read the data register (0x1F04).
Returns the C int result and the data (well defined only on success). -/
def rtl8365mb_phy_ocp_read (xp : Xport) (phy ocp_addr : Nat) : Int × Nat :=
  let r1 := rtl8365mb_phy_poll_busy xp
  if r1 ≠ 0 then (r1, 0)
  else
    let r2 := rtl8365mb_phy_ocp_prepare xp phy ocp_addr
    if r2 ≠ 0 then (r2, 0)
    else
      match xp.write 0x1F00 0x1 with
      | .error e => (e, 0)
      | .ok _ =>
        let r3 := rtl8365mb_phy_poll_busy xp
        if r3 ≠ 0 then (r3, 0)
        else
          match xp.read 0x1F04 with
          | .error e => (e, 0)
          | .ok v => (0, v &&& 0xFFFF)

/-- rtl8365mb_phy_ocp_write: poll busy, prepare, write the data register
(0x1F03), trigger a write command in the control register (0x1F00), poll
busy.  The source function ends with return 0, so every early exit through
the out label discards the error it just detected. -/
def rtl8365mb_phy_ocp_write (xp : Xport) (phy ocp_addr data : Nat) : Int :=
  let r1 := rtl8365mb_phy_poll_busy xp
  if r1 ≠ 0 then 0
  else
    let r2 := rtl8365mb_phy_ocp_prepare xp phy ocp_addr
    if r2 ≠ 0 then 0
    else
      match xp.write 0x1F03 data with
      | .error _ => 0
      | .ok _ =>
        match xp.write 0x1F00 0x3 with
        | .error _ => 0
        | .ok _ =>
          let r3 := rtl8365mb_phy_poll_busy xp
          if r3 ≠ 0 then 0 else 0

/-! ### MIB counters and statistics -/

/-- The rtl8365mb_mib_counters array as (offset, length) pairs, in enum
order. -/
def rtl8365mb_mib_counters : List (Nat × Nat) :=
  [(0, 4), (4, 2), (6, 2), (8, 2), (10, 2), (12, 2), (14, 2), (16, 2),
   (18, 2), (20, 2), (22, 2), (24, 2), (26, 2), (28, 2), (30, 2), (32, 2),
   (34, 2), (36, 2), (38, 2), (40, 4), (44, 2), (46, 2), (48, 2), (50, 2),
   (52, 2), (54, 2), (56, 2), (58, 2), (60, 4), (64, 2), (66, 2), (68, 2),
   (70, 2), (72, 2), (74, 2), (76, 2), (78, 2), (80, 2), (82, 2), (84, 2),
   (86, 2), (88, 2), (90, 2), (92, 4), (96, 2), (98, 2), (100, 2), (102, 2),
   (104, 2), (106, 2), (108, 2), (110, 2), (112, 2), (114, 2), (116, 2),
   (118, 2), (120, 2), (122, 2)]

/-- RTL8365MB_MIB_ADDRESS: the SRAM address written to the MIB address
register, (0x7C * port + offset) >> 2. -/
def mibAddress (port offset : Nat) : Nat := (0x7C * port + offset) >>> 2

/-- u32 subtraction with wraparound, for the offset - i expression of the
MIB read loop. -/
def sub32 (a b : Nat) : Nat := (a + 2 ^ 32 - b % 2 ^ 32) % 2 ^ 32

/-- The word-read loop of rtl8365mb_mib_counter_read: read `len` registers
downward from window position `off`, accumulating most-significant word
first into a 64-bit value. -/
def mibReadWords (xp : Xport) (off : Nat) : Nat → Nat → Nat → Except Int Nat
  | 0, _, tmp => .ok tmp
  | n + 1, i, tmp =>
    match xp.read (0x1000 + sub32 off i) with
    | .error e => .error e
    | .ok v => mibReadWords xp off n (i + 1) (((tmp <<< 16) ||| (v &&& 0xFFFF)) % 2 ^ 64)

/-- rtl8365mb_mib_counter_read: program the MIB address register (0x1004),
poll the busy bit of MIB_CTRL0 (0x1005 bit 0), fail with -EIO if the reset
bit (bit 1) is set, then read 1, 2 or 4 words from the counter window and
assemble them most-significant first. -/
def rtl8365mb_mib_counter_read (xp : Xport) (port offset length : Nat) :
    Except Int Nat :=
  match xp.write 0x1004 (mibAddress port offset) with
  | .error e => .error e
  | .ok _ =>
    match readPollTimeout xp 0x1005 (fun v => v &&& 0x1 = 0) with
    | .error e => .error e
    | .ok val =>
      if val &&& 0x2 ≠ 0 then .error (-5)
      else
        let off2 := if length = 4 then 3 else (offset + 1) % 4
        mibReadWords xp off2 length 0 0

/-- The counters marked with 1 in the cnt initializer of
rtl8365mb_stats_update, by enum index. -/
def statsMarked : List Nat := [0, 1, 5, 6, 7, 8, 9, 10, 28, 32, 33, 36, 38, 39, 40]

/-- The loop of rtl8365mb_stats_update: walk the counter indices, skip
entries whose cnt value is zero (unmarked), read the others, stop at the
first failure.  Returns the final C ret value and the cnt array. -/
def statsLoop (xp : Xport) (port : Nat) : List Nat → (Nat → Nat) → Int × (Nat → Nat)
  | [], cnt => (0, cnt)
  | i :: rest, cnt =>
    if cnt i = 0 then statsLoop xp port rest cnt
    else
      let c := rtl8365mb_mib_counters.getD i (0, 0)
      match rtl8365mb_mib_counter_read xp port c.1 c.2 with
      | .error e => (e, cnt)
      | .ok v => statsLoop xp port rest (fun j => if j = i then v else cnt j)

/-- The published per-port statistics snapshot (struct rtnl_link_stats64
fields the driver touches). -/
structure Stats where
  rx_packets : Nat
  tx_packets : Nat
  rx_bytes : Nat
  tx_bytes : Nat
  rx_dropped : Nat
  tx_dropped : Nat
  multicast : Nat
  collisions : Nat
  rx_length_errors : Nat
  rx_crc_errors : Nat
  rx_errors : Nat
  tx_aborted_errors : Nat
  tx_window_errors : Nat
  tx_errors : Nat
deriving DecidableEq, Repr

/-- u64 addition. -/
def add64 (a b : Nat) : Nat := (a + b) % 2 ^ 64

/-- u64 subtraction with wraparound. -/
def sub64 (a b : Nat) : Nat := (a % 2 ^ 64 + 2 ^ 64 - b % 2 ^ 64) % 2 ^ 64

/-- The snapshot derivation of rtl8365mb_stats_update from the cnt array
(u64 arithmetic; byte counters have 4 octets of FCS removed per packet). -/
def deriveStats (cnt : Nat → Nat) : Stats :=
  let rxp := sub64 (add64 (add64 (cnt 7) (cnt 9)) (cnt 10)) (cnt 36)
  let txp := add64 (add64 (cnt 38) (cnt 39)) (cnt 40)
  let rxlen := add64 (cnt 5) (cnt 6)
  let txab := cnt 36
  let txwin := cnt 32
  { rx_packets := rxp
    tx_packets := txp
    rx_bytes := sub64 (cnt 0) ((4 * rxp) % 2 ^ 64)
    tx_bytes := sub64 (cnt 28) ((4 * txp) % 2 ^ 64)
    rx_dropped := cnt 8
    tx_dropped := cnt 36
    multicast := cnt 9
    collisions := cnt 33
    rx_length_errors := rxlen
    rx_crc_errors := cnt 1
    rx_errors := add64 rxlen (cnt 1)
    tx_aborted_errors := txab
    tx_window_errors := txwin
    tx_errors := add64 txab txwin }

/-- The initial cnt array of rtl8365mb_stats_update: 1 for the marked
counters, 0 elsewhere. -/
def statsInit : Nat → Nat := fun i => if i ∈ statsMarked then 1 else 0

/-- rtl8365mb_stats_update: run the batch; on any failure leave the snapshot
untouched, otherwise replace every field from the cnt array. -/
def rtl8365mb_stats_update (xp : Xport) (port : Nat) (stats : Stats) : Stats :=
  let p := statsLoop xp port (List.range 47) statsInit
  if p.1 ≠ 0 then stats else deriveStats p.2

/-- Specification-level batch: read the marked counters in order,
propagating the first failure, and return the final cnt array. -/
def statsBatchSpec (xp : Xport) (port : Nat) : List Nat → (Nat → Nat) → Except Int (Nat → Nat)
  | [], cnt => .ok cnt
  | i :: rest, cnt =>
    let c := rtl8365mb_mib_counters.getD i (0, 0)
    match rtl8365mb_mib_counter_read xp port c.1 c.2 with
    | .error e => .error e
    | .ok v => statsBatchSpec xp port rest (fun j => if j = i then v else cnt j)

/-! ### Interrupt demultiplexer -/

/-- irqreturn_t values used by the handler. -/
inductive IrqRet where
  | handled
  | nothandled
deriving DecidableEq, Repr

/-- rtl8365mb_get_and_clear_status_reg: read a status register and write the
value back to clear it. -/
def getAndClearStatusReg (xp : Xport) (reg : Nat) : Except Int Nat :=
  match xp.read reg with
  | .error e => .error e
  | .ok v =>
    match xp.write reg v with
    | .error e => .error e
    | .ok _ => .ok v

/-- The set bits of `lines` below `numPorts`, in order: the child interrupt
lines triggered by for_each_set_bit. -/
def setBitsBelow (lines numPorts : Nat) : List Nat :=
  (List.range numPorts).filter (fun b => lines.testBit b)

/-- rtl8365mb_irq: read and clear the interrupt status register (0x1102); if
the link-change bit (bit 0) is set, read and clear the link-up (0x1107) and
link-down (0x1106) indicators (masked to GENMASK(10,0)) and or them into the
changed-line bitmap.  Any transport failure logs and falls through to the
IRQ_NONE return; an empty bitmap is also IRQ_NONE.  Returns the irqreturn_t
value and the list of triggered child lines. -/
def rtl8365mb_irq (xp : Xport) (numPorts : Nat) : IrqRet × List Nat :=
  match getAndClearStatusReg xp 0x1102 with
  | .error _ => (.nothandled, [])
  | .ok stat =>
    if stat &&& 0x1 ≠ 0 then
      match getAndClearStatusReg xp 0x1107 with
      | .error _ => (.nothandled, [])
      | .ok v =>
        let linkup_ind := v &&& 0x7FF
        match getAndClearStatusReg xp 0x1106 with
        | .error _ => (.nothandled, [])
        | .ok w =>
          let linkdown_ind := w &&& 0x7FF
          let line_changes := linkup_ind ||| linkdown_ind
          if line_changes = 0 then (.nothandled, [])
          else (.handled, setBitsBelow line_changes numPorts)
    else (.nothandled, [])

/-- The cause-decoding pipeline of the handler, as an error-propagating
computation: the changed-line bitmap, or the first transport error. -/
def irqDecode (xp : Xport) : Except Int Nat :=
  match getAndClearStatusReg xp 0x1102 with
  | .error e => .error e
  | .ok stat =>
    if stat &&& 0x1 ≠ 0 then
      match getAndClearStatusReg xp 0x1107 with
      | .error e => .error e
      | .ok v =>
        match getAndClearStatusReg xp 0x1106 with
        | .error e => .error e
        | .ok w => .ok ((v &&& 0x7FF) ||| (w &&& 0x7FF))
    else .ok 0

/-! ### Bit-manipulation lemmas -/

theorem testBit_ldiffN (a b i : Nat) :
    (ldiffN a b).testBit i = (a.testBit i && !(b.testBit i)) := by
  simp only [ldiffN, Nat.testBit_xor, Nat.testBit_and]
  cases a.testBit i <;> cases b.testBit i <;> rfl

theorem testBit_updBits (x m v i : Nat) :
    (updBits x m v).testBit i = (if m.testBit i then v.testBit i else x.testBit i) := by
  simp only [updBits, Nat.testBit_or, testBit_ldiffN, Nat.testBit_and]
  cases m.testBit i <;> cases x.testBit i <;> cases v.testBit i <;> rfl

theorem updBits_extract (x m v o : Nat) :
    updBits x (m <<< o) ((v <<< o) &&& (m <<< o)) &&& (m <<< o) = (v &&& m) <<< o := by
  apply Nat.eq_of_testBit_eq
  intro i
  simp only [Nat.testBit_and, testBit_updBits, Nat.testBit_shiftLeft]
  cases hio : decide (i ≥ o) <;>
    cases hm : m.testBit (i - o) <;> cases hv : v.testBit (i - o) <;> simp

theorem getField_updBits (x m v o : Nat) :
    (updBits x (m <<< o) ((v <<< o) &&& (m <<< o)) &&& (m <<< o)) >>> o = v &&& m := by
  rw [updBits_extract, Nat.shiftLeft_shiftRight]

theorem and_0xFF_of_lt {v : Nat} (h : v < 256) : v &&& 0xFF = v := by
  have h2 : v &&& 2 ^ 8 - 1 = v % 2 ^ 8 := Nat.and_pow_two_sub_one_eq_mod v 8
  norm_num at h2
  omega

theorem and_0x3_of_lt {v : Nat} (h : v < 4) : v &&& 0x3 = v := by
  have h2 : v &&& 2 ^ 2 - 1 = v % 2 ^ 2 := Nat.and_pow_two_sub_one_eq_mod v 2
  norm_num at h2
  omega

/-! ### Table-access engine lemmas -/

theorem bulkWrite_mem (l : List Nat) (s : Chip) (base : Nat) :
    (bulkWrite s base l).1.mem = s.mem := by
  induction l generalizing s base with
  | nil => rfl
  | cons v vs ih => simpa [bulkWrite, wreg] using ih (wreg s base (v % 65536)) (base + 1)

theorem bulkWrite_events (l : List Nat) (s : Chip) (base : Nat) :
    (bulkWrite s base l).2 = (List.range l.length).map (fun i => Ev.regw (base + i)) := by
  induction l generalizing s base with
  | nil => rfl
  | cons v vs ih =>
    simp only [bulkWrite, ih, List.length_cons, List.range_succ_eq_map, List.map_cons,
      List.map_map, Nat.add_zero, List.cons.injEq, true_and, Function.comp]
    refine List.map_congr_left fun i _ => ?_
    exact congrArg Ev.regw (by omega)

theorem bulkWrite_regs_lo (l : List Nat) (s : Chip) (base a : Nat) (h : a < base) :
    (bulkWrite s base l).1.regs a = s.regs a := by
  induction l generalizing s base with
  | nil => rfl
  | cons v vs ih =>
    have h2 : a < base + 1 := by omega
    simp only [bulkWrite]
    rw [ih (wreg s base (v % 65536)) (base + 1) h2]
    simp only [wreg]
    rw [if_neg (by omega)]

theorem bulkWrite_regs_hi (l : List Nat) (s : Chip) (base a : Nat)
    (h : base + l.length ≤ a) : (bulkWrite s base l).1.regs a = s.regs a := by
  induction l generalizing s base with
  | nil => rfl
  | cons v vs ih =>
    simp only [List.length_cons] at h
    simp only [bulkWrite]
    rw [ih (wreg s base (v % 65536)) (base + 1) (by omega)]
    simp only [wreg]
    rw [if_neg (by omega)]

theorem bulkWrite_regs_at (l : List Nat) (s : Chip) (base w : Nat) (h : w < l.length) :
    (bulkWrite s base l).1.regs (base + w) = l.getD w 0 % 65536 := by
  induction l generalizing s base w with
  | nil => simp at h
  | cons v vs ih =>
    match w with
    | 0 =>
      simp only [bulkWrite, List.getD_cons_zero, Nat.add_zero]
      rw [bulkWrite_regs_lo vs _ (base + 1) base (by omega)]
      simp [wreg]
    | w + 1 =>
      simp only [List.length_cons] at h
      simp only [bulkWrite, List.getD_cons_succ]
      have h3 : base + (w + 1) = (base + 1) + w := by omega
      rw [h3, ih (wreg s base (v % 65536)) (base + 1) w (by omega)]

/-- C10: the table-access operation fails with -EINVAL exactly when the table
id is at least RTL8365MB_NUM_TABLES or the index does not fit the 14-bit
address field; in particular the undefined table id 0 passes validation, and
any access to a table of modeled row width 0 programs the address and control
registers (the only events in its trace) but transfers no data words: the
table memory and the caller buffer are unchanged. -/
theorem claim_C10_validation :
    (∀ table op idx val s,
      (rtl8365mb_table_access table op idx val s).1 =
        if RTL8365MB_NUM_TABLES ≤ table ∨ 2 ^ 14 ≤ idx then -22 else 0) ∧
    (∀ table op idx val s, table < RTL8365MB_NUM_TABLES → idx < 2 ^ 14 →
      rtl8365mb_table_entry_size.getD table 0 = 0 →
      (rtl8365mb_table_access table op idx val s).2.1 = val ∧
      (rtl8365mb_table_access table op idx val s).2.2.1.mem = s.mem ∧
      (rtl8365mb_table_access table op idx val s).2.2.2 =
        [Ev.regw 0x501, Ev.commit table op]) := by
  constructor
  · intro table op idx val s
    simp only [rtl8365mb_table_access, RTL8365MB_NUM_TABLES]
    by_cases ht : 6 ≤ table
    · rw [if_pos ht, if_pos (Or.inl ht)]
    · by_cases hi : idx < 2 ^ 14
      · rw [if_neg ht, if_neg (by omega : ¬ ¬ idx < 2 ^ 14),
          if_neg (by omega : ¬ (6 ≤ table ∨ 2 ^ 14 ≤ idx))]
        split <;> rfl
      · rw [if_neg ht, if_pos (by omega : ¬ idx < 2 ^ 14),
          if_pos (by omega : 6 ≤ table ∨ 2 ^ 14 ≤ idx)]
  · intro table op idx val s ht hi hz
    have hnt : ¬ RTL8365MB_NUM_TABLES ≤ table := by omega
    simp only [rtl8365mb_table_access, if_neg hnt, hz]
    rw [if_neg (by omega)]
    by_cases hop : op = RTL8365MB_TABLE_WRITE
    · have hnr : ¬ op = RTL8365MB_TABLE_READ := by
        simp only [hop, RTL8365MB_TABLE_WRITE, RTL8365MB_TABLE_READ]; omega
      simp only [if_pos hop, if_neg (by norm_num : ¬ (0 : Nat) = 10), List.take_zero,
        bulkWrite, if_neg hnr]
      refine ⟨trivial, ?_, by simp⟩
      simp only [commitEffect, if_pos hop]
      funext t i w
      simp only [wreg]
      rw [if_neg (by omega)]
    · simp only [if_neg hop]
      by_cases hr : op = RTL8365MB_TABLE_READ
      · simp only [if_pos hr, List.range_zero, List.map_nil, List.nil_append,
          if_neg (by norm_num : ¬ (0 : Nat) = 10), List.drop_zero]
        refine ⟨trivial, ?_, by simp⟩
        simp only [commitEffect, if_neg hop]
        rfl
      · simp only [if_neg hr]
        refine ⟨trivial, ?_, by simp⟩
        simp only [commitEffect, if_neg hop]
        rfl

/-- Witness for claim C10: table id 0 (undefined, row width 0) with a valid
index passes validation and transfers no data. -/
theorem claim_C10_validation_witness :
    (rtl8365mb_table_access 0 0 5 [7] freshChip).1 =
      (if RTL8365MB_NUM_TABLES ≤ 0 ∨ 2 ^ 14 ≤ 5 then (-22 : Int) else 0) ∧
    (rtl8365mb_table_access 0 0 5 [7] freshChip).2.1 = [7] ∧
    (rtl8365mb_table_access 0 0 5 [7] freshChip).2.2.1.mem = freshChip.mem ∧
    (rtl8365mb_table_access 0 0 5 [7] freshChip).2.2.2 = [Ev.regw 0x501, Ev.commit 0 0] :=
  ⟨claim_C10_validation.1 0 0 5 [7] freshChip,
   claim_C10_validation.2 0 0 5 [7] freshChip (by decide) (by decide) (by decide)⟩

/-- C3: for every valid (table, index, row) triple, a table write followed by
a table read of the same (table, index) returns the identical row, except
that for a table of row width exactly 10 words the first 9 words round-trip
unchanged and only the low 4 bits of the 10th word persist.  (No currently
defined table has width 10, so the exception branch of the conclusion is
never selected by the width function.) -/
theorem claim_C3_roundtrip (table idx : Nat) (row : List Nat) (s : Chip)
    (ht : table < RTL8365MB_NUM_TABLES) (hi : idx < 2 ^ 14)
    (hlen : row.length = rtl8365mb_table_entry_size.getD table 0)
    (hw : ∀ x ∈ row, x < 65536) :
    (rtl8365mb_table_access table RTL8365MB_TABLE_WRITE idx row s).1 = 0 ∧
    (rtl8365mb_table_access table RTL8365MB_TABLE_READ idx
      (List.replicate (rtl8365mb_table_entry_size.getD table 0) 0)
      (rtl8365mb_table_access table RTL8365MB_TABLE_WRITE idx row s).2.2.1).1 = 0 ∧
    (rtl8365mb_table_access table RTL8365MB_TABLE_READ idx
      (List.replicate (rtl8365mb_table_entry_size.getD table 0) 0)
      (rtl8365mb_table_access table RTL8365MB_TABLE_WRITE idx row s).2.2.1).2.1 =
      (if rtl8365mb_table_entry_size.getD table 0 = 10
       then row.take 9 ++ [row.getD 9 0 &&& 0xF] else row) := by
  have ht6 : table < 6 := ht
  have hile : ¬ 16384 ≤ idx := by omega
  interval_cases table
  · have hrow : row = [] := by
      simpa [rtl8365mb_table_entry_size, List.length_eq_zero] using hlen
    subst hrow
    simp [rtl8365mb_table_access, rtl8365mb_table_entry_size, hile,
      RTL8365MB_NUM_TABLES, RTL8365MB_TABLE_WRITE, RTL8365MB_TABLE_READ]
  · have hrow : row = [] := by
      simpa [rtl8365mb_table_entry_size, List.length_eq_zero] using hlen
    subst hrow
    simp [rtl8365mb_table_access, rtl8365mb_table_entry_size, hile,
      RTL8365MB_NUM_TABLES, RTL8365MB_TABLE_WRITE, RTL8365MB_TABLE_READ]
  · have hrow : row = [] := by
      simpa [rtl8365mb_table_entry_size, List.length_eq_zero] using hlen
    subst hrow
    simp [rtl8365mb_table_access, rtl8365mb_table_entry_size, hile,
      RTL8365MB_NUM_TABLES, RTL8365MB_TABLE_WRITE, RTL8365MB_TABLE_READ]
  · have hs3 : rtl8365mb_table_entry_size.getD 3 0 = 3 := rfl
    rw [hs3] at hlen
    obtain ⟨a, b, c, rfl⟩ := List.length_eq_three.mp hlen
    have ha : a % 65536 = a := Nat.mod_eq_of_lt (hw a (by simp))
    have hb : b % 65536 = b := Nat.mod_eq_of_lt (hw b (by simp))
    have hc : c % 65536 = c := Nat.mod_eq_of_lt (hw c (by simp))
    simp [rtl8365mb_table_access, rtl8365mb_table_entry_size, hile,
      RTL8365MB_NUM_TABLES, RTL8365MB_TABLE_WRITE, RTL8365MB_TABLE_READ, bulkWrite,
      wreg, commitEffect, List.range_succ, ha, hb, hc]
  · have hrow : row = [] := by
      simpa [rtl8365mb_table_entry_size, List.length_eq_zero] using hlen
    subst hrow
    simp [rtl8365mb_table_access, rtl8365mb_table_entry_size, hile,
      RTL8365MB_NUM_TABLES, RTL8365MB_TABLE_WRITE, RTL8365MB_TABLE_READ]
  · have hrow : row = [] := by
      simpa [rtl8365mb_table_entry_size, List.length_eq_zero] using hlen
    subst hrow
    simp [rtl8365mb_table_access, rtl8365mb_table_entry_size, hile,
      RTL8365MB_NUM_TABLES, RTL8365MB_TABLE_WRITE, RTL8365MB_TABLE_READ]

/-- Witness for claim C3 at the CVLAN table (width 3). -/
theorem claim_C3_roundtrip_witness :
    (rtl8365mb_table_access 3 RTL8365MB_TABLE_WRITE 10 [5, 6, 7] freshChip).1 = 0 ∧
    (rtl8365mb_table_access 3 RTL8365MB_TABLE_READ 10
      (List.replicate (rtl8365mb_table_entry_size.getD 3 0) 0)
      (rtl8365mb_table_access 3 RTL8365MB_TABLE_WRITE 10 [5, 6, 7] freshChip).2.2.1).1 = 0 ∧
    (rtl8365mb_table_access 3 RTL8365MB_TABLE_READ 10
      (List.replicate (rtl8365mb_table_entry_size.getD 3 0) 0)
      (rtl8365mb_table_access 3 RTL8365MB_TABLE_WRITE 10 [5, 6, 7] freshChip).2.2.1).2.1 =
      (if rtl8365mb_table_entry_size.getD 3 0 = 10
       then [5, 6, 7].take 9 ++ [[5, 6, 7].getD 9 0 &&& 0xF] else [5, 6, 7]) :=
  claim_C3_roundtrip 3 10 [5, 6, 7] freshChip (by decide) (by decide) (by decide)
    (by decide)

/-- A transport whose write to the PHY indirect-access write-data register
(0x1F03) fails with -EIO and which otherwise succeeds (all reads return 0). -/
def xpFailData : Xport :=
  { read := fun _ => .ok 0
    write := fun a _ => if a = 0x1F03 then .error (-5) else .ok ()
    upd := fun _ _ _ => .ok () }

/-- A transport on which the PHY indirect-access busy flag (status register
0x1F01) always reads busy, so the bounded busy poll times out. -/
def xpBusy : Xport :=
  { read := fun a => .ok (if a = 0x1F01 then 1 else 0)
    write := fun _ _ => .ok ()
    upd := fun _ _ _ => .ok () }

/-- C2 (bug evaluation): the error-propagation claim fails on the code.  An
indirect PHY register write whose data-register write fails with -EIO still
returns 0 (the source function ends with return 0 instead of return ret,
unlike its read twin), a PHY write whose busy poll times out also returns 0,
and a VLAN delete whose nested 4K step fails with -EINVAL returns 1 (the C
boolean or of the two step results), not the error value. -/
theorem claim_C2_error_propagation_bug :
    rtl8365mb_phy_ocp_write xpFailData 0 0xA400 7 = 0 ∧
    xpFailData.write 0x1F03 7 = .error (-5) ∧
    rtl8365mb_phy_ocp_write xpBusy 0 0xA400 7 = 0 ∧
    rtl8365mb_phy_poll_busy xpBusy = -110 ∧
    (rtl8365mb_vlan_del 2 5000 false false 0x100 freshChip).1 = 1 ∧
    (rtl8365mb_vlan4k_set 2 5000 false false freshChip).1 = -22 := by
  refine ⟨by decide, by rfl, by decide, by decide, by decide, by decide⟩

/-- A transport on which every read fails with -EIO. -/
def xpReadErr : Xport :=
  { read := fun _ => .error (-5)
    write := fun _ _ => .ok ()
    upd := fun _ _ _ => .ok () }

/-- C9 (counterexample): when the very first status-register read fails, the
interrupt handler returns IRQ_NONE (unclaimed), not IRQ_HANDLED as the claim
states, and triggers no child interrupt. -/
theorem claim_C9_counterexample :
    (rtl8365mb_irq xpReadErr 11).1 = IrqRet.nothandled ∧
    IrqRet.nothandled ≠ IrqRet.handled ∧
    (rtl8365mb_irq xpReadErr 11).2 = [] := by
  refine ⟨by decide, by decide, by decide⟩

/-- C9 (amended): the handler reports the interrupt as handled exactly when
the whole decode pipeline succeeds and yields a nonzero changed-line bitmap;
it reports IRQ_NONE both when no recognized cause is found and when a
register-transport failure occurs while servicing (the error path logs and
falls through to the IRQ_NONE return). -/
theorem claim_C9_amended (xp : Xport) (numPorts : Nat) :
    (rtl8365mb_irq xp numPorts).1 = IrqRet.handled ↔
      (∃ l, irqDecode xp = .ok l ∧ l ≠ 0) := by
  unfold rtl8365mb_irq irqDecode
  rcases h1 : getAndClearStatusReg xp 0x1102 with e | stat
  · simp
  · simp only []
    by_cases hs : stat &&& 0x1 ≠ 0
    · simp only [if_pos hs]
      rcases h2 : getAndClearStatusReg xp 0x1107 with e | v
      · simp
      · rcases h3 : getAndClearStatusReg xp 0x1106 with e | w
        · simp
        · by_cases hl : (v &&& 0x7FF) ||| (w &&& 0x7FF) = 0
          · simp [hl]
          · simp [hl]
    · simp only [if_neg hs]
      simp

/-- The counter-window register positions the claim describes: position 3
downward for 4-word counters, position (offset + 1) mod 4 downward for
narrower counters. -/
def mibWindowPositions (offset length : Nat) : List Nat :=
  if length = 4 then [3, 2, 1, 0]
  else (List.range length).map (fun i => (offset + 1) % 4 - i)

/-- Most-significant-word-first assembly of the window registers at the given
positions into a 64-bit value. -/
def mibAssembleSpec (f : Nat → Nat) (ps : List Nat) : Nat :=
  ps.foldl (fun tmp p => ((tmp <<< 16) ||| (f (0x1000 + p) &&& 0xFFFF)) % 2 ^ 64) 0

/-- Every counter of the MIB table is either 4 words wide, or 2 words wide at
an even byte offset (so the window position (offset + 1) mod 4 is 1 or 3 and
reading downward never wraps). -/
theorem mib_counters_shape :
    ∀ p ∈ rtl8365mb_mib_counters, p.2 = 4 ∨ (p.2 = 2 ∧ p.1 % 2 = 0) := by decide

/-- C8: for every MIB counter of the table, a read over a transport whose
writes succeed and whose reads return f fails with -EIO when the
reset-indicator bit (bit 1 of MIB_CTRL0) is set after the busy poll, and
otherwise assembles the result most-significant word first from window
position 3 downward (width 4) or from position (offset + 1) mod 4 downward
(width 2). -/
theorem claim_C8_mib_read (offset length : Nat)
    (hmem : (offset, length) ∈ rtl8365mb_mib_counters)
    (xp : Xport) (f : Nat → Nat) (port : Nat)
    (hw : ∀ a v, xp.write a v = .ok ())
    (hr : ∀ a, xp.read a = .ok (f a))
    (hbusy : f 0x1005 &&& 0x1 = 0) :
    rtl8365mb_mib_counter_read xp port offset length =
      (if f 0x1005 &&& 0x2 ≠ 0 then .error (-5)
       else .ok (mibAssembleSpec f (mibWindowPositions offset length))) := by
  have hprop := mib_counters_shape (offset, length) hmem
  simp only [rtl8365mb_mib_counter_read, hw, readPollTimeout, hr, hbusy, if_pos rfl]
  by_cases hrst : f 0x1005 &&& 0x2 ≠ 0
  · simp [hrst]
  · have hz : f 0x1005 &&& 0x2 = 0 := not_not.mp hrst
    simp only [hrst, if_neg hrst, ite_false]
    rcases hprop with h4 | ⟨h2, hev⟩
    · subst h4
      simp [mibReadWords, sub32, hr, mibWindowPositions, mibAssembleSpec, hz]
    · subst h2
      have hev2 : offset % 2 = 0 := hev
      have hp : (offset + 1) % 4 = 1 ∨ (offset + 1) % 4 = 3 := by omega
      rcases hp with hp | hp <;>
        simp [mibReadWords, sub32, hr, mibWindowPositions, mibAssembleSpec, hp, hz,
          List.range_succ]

/-- A transport whose reads return the address (except the MIB control
register, which reads 0: not busy, no reset) and whose writes succeed. -/
def xpAddrEcho : Xport :=
  { read := fun a => .ok (if a = 0x1005 then 0 else a)
    write := fun _ _ => .ok ()
    upd := fun _ _ _ => .ok () }

/-- Well-formed fallible transport: failures carry a nonzero errno, as Linux
regmap calls do. -/
def XportWf (xp : Xport) : Prop :=
  (∀ a e, xp.read a = .error e → e ≠ 0) ∧
  (∀ a v e, xp.write a v = .error e → e ≠ 0)

theorem mibReadWords_error (xp : Xport) (off : Nat) :
    ∀ (n i tmp : Nat) (e : Int), mibReadWords xp off n i tmp = .error e →
      ∃ a, xp.read a = .error e := by
  intro n
  induction n with
  | zero => intro i tmp e h; simp [mibReadWords] at h
  | succ m ih =>
    intro i tmp e h
    simp only [mibReadWords] at h
    rcases hr : xp.read (0x1000 + sub32 off i) with e2 | v
    · rw [hr] at h
      injection h with h2
      subst h2
      exact ⟨_, hr⟩
    · rw [hr] at h
      exact ih (i + 1) _ e h

theorem readPollTimeout_error_ne (xp : Xport) (hwf : XportWf xp)
    (addr : Nat) (cond : Nat → Bool) (e : Int)
    (h : readPollTimeout xp addr cond = .error e) : e ≠ 0 := by
  simp only [readPollTimeout] at h
  rcases hr : xp.read addr with e2 | v
  · rw [hr] at h
    injection h with h2
    subst h2
    exact hwf.1 _ _ hr
  · rw [hr] at h
    split at h
    next heq => cases heq
    next w heq =>
      injection heq with hvw
      subst hvw
      split at h
      · cases h
      · injection h with h2
        subst h2
        decide

theorem mib_counter_read_error_ne (xp : Xport) (hwf : XportWf xp)
    (port offset length : Nat) (e : Int)
    (h : rtl8365mb_mib_counter_read xp port offset length = .error e) : e ≠ 0 := by
  simp only [rtl8365mb_mib_counter_read] at h
  rcases hw : xp.write 0x1004 (mibAddress port offset) with e2 | u
  · rw [hw] at h
    injection h with h2
    subst h2
    exact hwf.2 _ _ _ hw
  · rw [hw] at h
    rcases hpoll : readPollTimeout xp 0x1005 (fun v => v &&& 0x1 = 0) with e3 | v
    · rw [hpoll] at h
      injection h with h2
      subst h2
      exact readPollTimeout_error_ne xp hwf _ _ _ hpoll
    · rw [hpoll] at h
      have h2 : (if v &&& 0x2 ≠ 0 then Except.error (-5)
          else mibReadWords xp (if length = 4 then 3 else (offset + 1) % 4)
            length 0 0) = Except.error e := h
      by_cases hrst : v &&& 0x2 ≠ 0
      · rw [if_pos hrst] at h2
        injection h2 with h3
        subst h3
        decide
      · rw [if_neg hrst] at h2
        obtain ⟨a, ha⟩ := mibReadWords_error xp _ _ _ _ _ h2
        exact hwf.1 _ _ ha

theorem statsLoop_eq (xp : Xport) (port : Nat) (hwf : XportWf xp) :
    ∀ (l : List Nat) (cnt : Nat → Nat),
      (∀ i ∈ l, cnt i = statsInit i) → l.Nodup →
      ((∃ e, statsBatchSpec xp port
          (l.filter (fun i => decide (statsInit i ≠ 0))) cnt = .error e ∧
          (statsLoop xp port l cnt).1 = e ∧ e ≠ 0) ∨
       (∃ c, statsBatchSpec xp port
          (l.filter (fun i => decide (statsInit i ≠ 0))) cnt = .ok c ∧
          statsLoop xp port l cnt = (0, c))) := by
  intro l
  induction l with
  | nil =>
    intro cnt _ _
    right
    exact ⟨cnt, rfl, rfl⟩
  | cons i rest ih =>
    intro cnt hinv hnd
    have hci : cnt i = statsInit i := hinv i (by simp)
    by_cases hm : statsInit i = 0
    · have hz : cnt i = 0 := by rw [hci, hm]
      have hfilter : (i :: rest).filter (fun j => decide (statsInit j ≠ 0)) =
          rest.filter (fun j => decide (statsInit j ≠ 0)) := by
        simp [List.filter, hm]
      rw [hfilter]
      have hloop : statsLoop xp port (i :: rest) cnt = statsLoop xp port rest cnt := by
        simp [statsLoop, hz]
      rw [hloop]
      exact ih cnt (fun j hj => hinv j (by simp [hj])) (List.Nodup.of_cons hnd)
    · have hz : ¬ cnt i = 0 := by rw [hci]; exact hm
      have hfilter : (i :: rest).filter (fun j => decide (statsInit j ≠ 0)) =
          i :: rest.filter (fun j => decide (statsInit j ≠ 0)) := by
        simp [List.filter, hm]
      rw [hfilter]
      rcases hread : rtl8365mb_mib_counter_read xp port
          (rtl8365mb_mib_counters.getD i (0, 0)).1
          (rtl8365mb_mib_counters.getD i (0, 0)).2 with e | v
      · left
        refine ⟨e, ?_, ?_, mib_counter_read_error_ne xp hwf _ _ _ e hread⟩
        · simp only [statsBatchSpec]
          rw [hread]
        · simp only [statsLoop, if_neg hz]
          rw [hread]
      · have hloop : statsLoop xp port (i :: rest) cnt =
            statsLoop xp port rest (fun j => if j = i then v else cnt j) := by
          simp only [statsLoop, if_neg hz]
          rw [hread]
        have hspec : statsBatchSpec xp port
            (i :: rest.filter (fun j => decide (statsInit j ≠ 0))) cnt =
            statsBatchSpec xp port (rest.filter (fun j => decide (statsInit j ≠ 0)))
              (fun j => if j = i then v else cnt j) := by
          simp only [statsBatchSpec]
          rw [hread]
        rw [hloop, hspec]
        have hni : i ∉ rest := (List.nodup_cons.mp hnd).1
        refine ih (fun j => if j = i then v else cnt j) (fun j hj => ?_)
          (List.Nodup.of_cons hnd)
        have hji : j ≠ i := fun hh => hni (hh ▸ hj)
        show (if j = i then v else cnt j) = statsInit j
        rw [if_neg hji]
        exact hinv j (by simp [hj])

/-- A transport on which the fifth marked counter read of the statistics
batch (ifInUcastPkts, byte offset 16, so MIB SRAM address 4 for port 0) fails
with -EIO, while earlier counters succeed. -/
def xpFifth : Xport :=
  { read := fun a => .ok (if a = 0x1005 then 0 else 7)
    write := fun a v => if a = 0x1004 ∧ v = 4 then .error (-5) else .ok ()
    upd := fun _ _ _ => .ok () }

/-- An arbitrary previously published snapshot. -/
def exampleStats : Stats :=
  ⟨1, 2, 3, 4, 5, 6, 7, 8, 9, 10, 11, 12, 13, 14⟩

/-- C7: the scheduled statistics batch updates the published snapshot
atomically: if any marked counter read fails, the snapshot is returned
completely unchanged; if the whole batch succeeds, every field is replaced
from the freshly read counters (so the result does not depend on the previous
snapshot at all).  Concretely, on a transport where the fifth counter read
(ifInUcastPkts) fails with -EIO the snapshot is unchanged, and on a fully
successful transport two cycles from different previous snapshots publish the
same result. -/
theorem claim_C7_stats_atomic :
    (∀ xp, XportWf xp → ∀ port stats,
      rtl8365mb_stats_update xp port stats =
        (match statsBatchSpec xp port statsMarked statsInit with
         | .error _ => stats
         | .ok c => deriveStats c)) ∧
    (rtl8365mb_stats_update xpFifth 0 exampleStats = exampleStats ∧
     rtl8365mb_mib_counter_read xpFifth 0 16 2 = .error (-5) ∧
     (∀ s1 s2, rtl8365mb_stats_update xpAddrEcho 0 s1 =
       rtl8365mb_stats_update xpAddrEcho 0 s2)) := by
  have hkey : ∀ xp, XportWf xp → ∀ port stats,
      rtl8365mb_stats_update xp port stats =
        (match statsBatchSpec xp port statsMarked statsInit with
         | .error _ => stats
         | .ok c => deriveStats c) := by
    intro xp hwf port stats
    have hml : (List.range 47).filter (fun i => decide (statsInit i ≠ 0)) =
        statsMarked := by decide
    have h := statsLoop_eq xp port hwf (List.range 47) statsInit
      (fun i _ => rfl) (List.nodup_range 47)
    rw [hml] at h
    rcases h with ⟨e, hspec, hloop, hne⟩ | ⟨c, hspec, hloop⟩
    · rw [hspec]
      simp only [rtl8365mb_stats_update, hloop, if_pos hne]
    · rw [hspec]
      simp only [rtl8365mb_stats_update, hloop]
      simp
  refine ⟨hkey, by decide, by rfl, ?_⟩
  intro s1 s2
  have hwfe : XportWf xpAddrEcho := by
    constructor
    · intro a e h
      simp only [xpAddrEcho] at h
      cases h
    · intro a v e h
      simp only [xpAddrEcho] at h
      cases h
  rw [hkey xpAddrEcho hwfe 0 s1, hkey xpAddrEcho hwfe 0 s2]
  have hok : (statsBatchSpec xpAddrEcho 0 statsMarked statsInit).isOk = true := by decide
  rcases hspec : statsBatchSpec xpAddrEcho 0 statsMarked statsInit with e | c
  · rw [hspec] at hok
    exact Bool.noConfusion hok
  · rfl

/-- Witness for claim C8 at the 4-word counter ifInOctets (offset 0). -/
theorem claim_C8_mib_read_witness :
    rtl8365mb_mib_counter_read xpAddrEcho 0 0 4 =
      (if (if (0x1005 : Nat) = 0x1005 then (0 : Nat) else 0x1005) &&& 0x2 ≠ 0
       then .error (-5)
       else .ok (mibAssembleSpec (fun a => if a = 0x1005 then 0 else a)
         (mibWindowPositions 0 4))) :=
  claim_C8_mib_read 0 4 (by decide) xpAddrEcho
    (fun a => if a = 0x1005 then 0 else a) 0 (fun _ _ => rfl) (fun _ => rfl)
    (by decide)

/-! ### Scan and preservation lemmas for the VLAN reconciler -/

theorem mcScanGo_fst_le (s : Chip) (vid : Nat) :
    ∀ (fuel i : Nat) (fu : Option Nat), (mcScanGo s vid i fuel fu).1 ≤ i + fuel := by
  intro fuel
  induction fuel with
  | zero => intro i fu; simp [mcScanGo]
  | succ m ih =>
    intro i fu
    simp only [mcScanGo]
    split
    · omega
    · have := ih (i + 1) (if mcEvid s i = 0 ∧ fu = none then some i else fu)
      omega

theorem mcScanGo_fst_ge (s : Chip) (vid : Nat) :
    ∀ (fuel i : Nat) (fu : Option Nat), i ≤ (mcScanGo s vid i fuel fu).1 := by
  intro fuel
  induction fuel with
  | zero => intro i fu; simp [mcScanGo]
  | succ m ih =>
    intro i fu
    simp only [mcScanGo]
    split
    · omega
    · have := ih (i + 1) (if mcEvid s i = 0 ∧ fu = none then some i else fu)
      omega

theorem mcScanGo_snd (s : Chip) (vid : Nat) :
    ∀ (fuel i : Nat) (fu : Option Nat) (j : Nat),
      (mcScanGo s vid i fuel fu).2 = some j →
      fu = some j ∨ (i ≤ j ∧ j < i + fuel) := by
  intro fuel
  induction fuel with
  | zero =>
    intro i fu j h
    simp [mcScanGo] at h
    exact Or.inl h
  | succ m ih =>
    intro i fu j h
    simp only [mcScanGo] at h
    split at h
    · exact Or.inl h
    · rcases ih (i + 1) _ j h with h2 | h2
      · by_cases hc : mcEvid s i = 0 ∧ fu = none
        · rw [if_pos hc] at h2
          injection h2 with h3
          right
          omega
        · rw [if_neg hc] at h2
          exact Or.inl h2
      · right
        omega

theorem mcScan_fst_le (s : Chip) (vid : Nat) : (mcScan s vid).1 ≤ 32 :=
  mcScanGo_fst_le s vid 31 1 none

theorem mcScan_fst_ge (s : Chip) (vid : Nat) : 1 ≤ (mcScan s vid).1 :=
  mcScanGo_fst_ge s vid 31 1 none

theorem mcScan_snd_lt (s : Chip) (vid j : Nat) (h : (mcScan s vid).2 = some j) :
    1 ≤ j ∧ j < 32 := by
  rcases mcScanGo_snd s vid 31 1 none j h with h2 | h2
  · cases h2
  · omega

theorem mcScanGo_full (s : Chip) (vid : Nat) :
    ∀ (fuel i : Nat),
      (∀ k, i ≤ k → k < i + fuel → mcEvid s k ≠ vid ∧ mcEvid s k ≠ 0) →
      mcScanGo s vid i fuel none = (i + fuel, none) := by
  intro fuel
  induction fuel with
  | zero => intro i _; simp [mcScanGo]
  | succ m ih =>
    intro i hall
    have hi := hall i (le_refl i) (by omega)
    simp only [mcScanGo, if_neg hi.1]
    rw [if_neg (by simp [hi.2])]
    rw [ih (i + 1) (fun k hk1 hk2 => hall k (by omega) (by omega))]
    rw [show i + 1 + m = i + (m + 1) from by omega]

/-- Table accesses of the CVLAN table touch only registers below 0x52A: the
staging, address, control and read-data registers.  Registers from 0x52A up
(in particular the VLAN MC, PVID and accepted-frame-type registers at 0x700
and above) are preserved. -/
theorem table3_read_regs_hi (idx : Nat) (val : List Nat) (s : Chip) (a : Nat)
    (ha : 0x52A ≤ a) :
    (rtl8365mb_table_access 3 RTL8365MB_TABLE_READ idx val s).2.2.1.regs a = s.regs a := by
  simp only [rtl8365mb_table_access]
  split
  · rfl
  · split
    · rfl
    · simp only [RTL8365MB_TABLE_READ, RTL8365MB_TABLE_WRITE, commitEffect, wreg,
        rtl8365mb_table_entry_size]
      norm_num
      rw [if_neg (by omega), if_neg (by omega), if_neg (by omega)]

theorem table3_read_mem (idx : Nat) (val : List Nat) (s : Chip) :
    (rtl8365mb_table_access 3 RTL8365MB_TABLE_READ idx val s).2.2.1.mem = s.mem := by
  simp only [rtl8365mb_table_access]
  split
  · rfl
  · split
    · rfl
    · simp only [RTL8365MB_TABLE_READ, RTL8365MB_TABLE_WRITE, commitEffect, wreg]
      norm_num

theorem table3_read_ret_trace (idx : Nat) (val : List Nat) (s : Chip)
    (hidx : idx < 2 ^ 14) :
    (rtl8365mb_table_access 3 RTL8365MB_TABLE_READ idx val s).1 = 0 ∧
    (rtl8365mb_table_access 3 RTL8365MB_TABLE_READ idx val s).2.2.2 =
      [Ev.regw 0x501, Ev.commit 3 0] := by
  simp only [rtl8365mb_table_access]
  rw [if_neg (by simp [RTL8365MB_NUM_TABLES]), if_neg (by omega)]
  simp [RTL8365MB_TABLE_READ, RTL8365MB_TABLE_WRITE]

theorem table3_write_ret_trace (idx : Nat) (b0 b1 b2 : Nat) (s : Chip)
    (hidx : idx < 2 ^ 14) :
    (rtl8365mb_table_access 3 RTL8365MB_TABLE_WRITE idx [b0, b1, b2] s).1 = 0 ∧
    (rtl8365mb_table_access 3 RTL8365MB_TABLE_WRITE idx [b0, b1, b2] s).2.2.2 =
      [Ev.regw 0x510, Ev.regw 0x511, Ev.regw 0x512, Ev.regw 0x501, Ev.commit 3 1] := by
  simp only [rtl8365mb_table_access]
  rw [if_neg (by simp [RTL8365MB_NUM_TABLES]), if_neg (by omega)]
  simp [RTL8365MB_TABLE_READ, RTL8365MB_TABLE_WRITE, rtl8365mb_table_entry_size,
    bulkWrite]

theorem aftOf_wreg_ne (s : Chip) (a v port : Nat) (h : aftReg port ≠ a) :
    aftOf (wreg s a v) port = aftOf s port := by
  simp only [aftOf, wreg, if_neg h]

theorem pvidIdxOf_wreg_ne (s : Chip) (a v port : Nat) (h : pvidCtrlReg port ≠ a) :
    pvidIdxOf (wreg s a v) port = pvidIdxOf s port := by
  simp only [pvidIdxOf, wreg, if_neg h]

theorem aftOf_bulkWrite_hi (l : List Nat) (s : Chip) (base port : Nat)
    (h : base + l.length ≤ aftReg port) :
    aftOf (bulkWrite s base l).1 port = aftOf s port := by
  simp only [aftOf, bulkWrite_regs_hi l s base _ h]

theorem pvidIdxOf_bulkWrite_lo (l : List Nat) (s : Chip) (base port : Nat)
    (h : pvidCtrlReg port < base) :
    pvidIdxOf (bulkWrite s base l).1 port = pvidIdxOf s port := by
  simp only [pvidIdxOf, bulkWrite_regs_lo l s base _ h]

theorem aftOf_wreg_self (s : Chip) (port v : Nat) :
    aftOf (wreg s (aftReg port)
      (updBits (s.regs (aftReg port)) (0x3 <<< aftOff port)
        ((v <<< aftOff port) &&& (0x3 <<< aftOff port)))) port = v &&& 0x3 := by
  simp only [aftOf, wreg, if_pos rfl]
  exact getField_updBits _ _ _ _

theorem pvidIdxOf_wreg_self (s : Chip) (port v : Nat) :
    pvidIdxOf (wreg s (pvidCtrlReg port)
      (updBits (s.regs (pvidCtrlReg port)) (0xFF <<< pvidCtrlOff port)
        ((v <<< pvidCtrlOff port) &&& (0xFF <<< pvidCtrlOff port)))) port = v &&& 0xFF := by
  simp only [pvidIdxOf, wreg, if_pos rfl]
  exact getField_updBits _ _ _ _

theorem pvid_ne_aft (port : Nat) (hport : port < 11) : pvidCtrlReg port ≠ aftReg port := by
  simp only [pvidCtrlReg, aftReg]
  omega

theorem aft_ne_pvid (port : Nat) (hport : port < 11) : aftReg port ≠ pvidCtrlReg port :=
  (pvid_ne_aft port hport).symm

theorem mc_le_aft (idx port : Nat) (hidx : idx < 32) (hport : port < 11) :
    mcConfReg idx + 4 ≤ aftReg port := by
  simp only [mcConfReg, aftReg]
  omega

theorem pvid_lt_mc (idx port : Nat) (hport : port < 11) :
    pvidCtrlReg port < mcConfReg idx := by
  simp only [pvidCtrlReg, mcConfReg]
  omega

theorem fst_ite {α β : Type} {c : Prop} [Decidable c] (a b : α × β) :
    (ite c a b).1 = ite c a.1 b.1 := by
  split <;> rfl

theorem snd_ite {α β : Type} {c : Prop} [Decidable c] (a b : α × β) :
    (ite c a b).2 = ite c a.2 b.2 := by
  split <;> rfl

theorem aftOf_ite {c : Prop} [Decidable c] (s1 s2 : Chip) (port : Nat) :
    aftOf (ite c s1 s2) port = ite c (aftOf s1 port) (aftOf s2 port) := by
  split <;> rfl

theorem pvidIdxOf_ite {c : Prop} [Decidable c] (s1 s2 : Chip) (port : Nat) :
    pvidIdxOf (ite c s1 s2) port = ite c (pvidIdxOf s1 port) (pvidIdxOf s2 port) := by
  split <;> rfl

theorem vlanmcNewEntry_length (port vid : Nat) (inc : Bool) (cpu : Nat)
    (entry : List Nat) (v4kmem : Nat) :
    (vlanmcNewEntry port vid inc cpu entry v4kmem).length = 4 := by
  simp only [vlanmcNewEntry]
  split <;> split <;> rfl

/-- The accepted-frame-type side effect of the write-back: it flips to
tagged-only (1) exactly on a delete whose resolved slot is the port's current
PVID slot while the port accepts any frame (0), flips to any-frame (0)
exactly on a PVID add while the port is tagged-only (1), and is otherwise
untouched. -/
theorem vlanmcWriteBack_aft (port : Nat) (pvidf inc : Bool) (idx : Nat)
    (newEntry : List Nat) (s : Chip) (hport : port < 11) (hidx : idx < 32)
    (hlen : newEntry.length = 4) :
    aftOf (vlanmcWriteBack port pvidf inc idx newEntry s).1 port =
      (if inc = false ∧ aftOf s port = 0 ∧ pvidIdxOf s port = idx then 1
       else if inc = true ∧ pvidf = true ∧ aftOf s port = 1 then 0
       else aftOf s port) := by
  have h1 : ∀ (s2 : Chip) (v : Nat), aftOf (wreg s2 (pvidCtrlReg port) v) port = aftOf s2 port :=
    fun s2 v => aftOf_wreg_ne s2 _ v port (aft_ne_pvid port hport)
  have h2 : aftOf (bulkWrite s (mcConfReg idx) newEntry).1 port = aftOf s port :=
    aftOf_bulkWrite_hi newEntry s (mcConfReg idx) port
      (by rw [hlen]; exact mc_le_aft idx port hidx hport)
  have h3 : ∀ (s2 : Chip) (v : Nat),
      aftOf (wreg s2 (aftReg port)
        (updBits (s2.regs (aftReg port)) (0x3 <<< aftOff port)
          ((v <<< aftOff port) &&& (0x3 <<< aftOff port)))) port = v &&& 0x3 :=
    fun s2 v => aftOf_wreg_self s2 port v
  have hc1 : (1 : Nat) &&& 0x3 = 1 := rfl
  have hc0 : (0 : Nat) &&& 0x3 = 0 := rfl
  have h3z : ∀ (s2 : Chip),
      aftOf (wreg s2 (aftReg port)
        (updBits (s2.regs (aftReg port)) (0x3 <<< aftOff port) 0)) port = 0 := by
    intro s2
    have h4 := h3 s2 0
    simpa using h4
  cases hinc : inc with
  | false =>
    by_cases hflip : aftOf s port = 0 ∧ pvidIdxOf s port = idx
    · simp [vlanmcWriteBack, fst_ite, snd_ite, aftOf_ite, h1, h2, h3, hflip.1, hflip.2]
    · simp only [vlanmcWriteBack, fst_ite, snd_ite, aftOf_ite]
      simp [h1, h2, h3, hflip]
  | true =>
    cases hpv : pvidf with
    | false => simp [vlanmcWriteBack, fst_ite, snd_ite, aftOf_ite, h1, h2, h3]
    | true =>
      by_cases hafr : aftOf s port = 1
      · simp [vlanmcWriteBack, fst_ite, snd_ite, aftOf_ite, h1, h2, h3, h3z, hafr]
      · simp [vlanmcWriteBack, fst_ite, snd_ite, aftOf_ite, h1, h2, h3, h3z, hafr]

theorem vlanmc_apply_aft (port vid : Nat) (pvidf inc : Bool) (cpu idx : Nat)
    (entry : List Nat) (v4kmem : Nat) (s : Chip) (evPre : List Ev)
    (hport : port < 11) (hidx : idx < 32) :
    aftOf (vlanmc_apply port vid pvidf inc cpu idx entry v4kmem s evPre).2.1 port =
      (if inc = false ∧ aftOf s port = 0 ∧ pvidIdxOf s port = idx then 1
       else if inc = true ∧ pvidf = true ∧ aftOf s port = 1 then 0
       else aftOf s port) :=
  vlanmcWriteBack_aft port pvidf inc idx _ s hport hidx
    (vlanmcNewEntry_length port vid inc cpu entry v4kmem)

theorem mem_ite_list {α : Type} {c : Prop} [Decidable c] (x : α) (l1 l2 : List α) :
    (x ∈ ite c l1 l2) = ite c (x ∈ l1) (x ∈ l2) := by
  split <;> rfl

theorem filterMap_ite {α β : Type} {c : Prop} [Decidable c] (f : α → Option β)
    (l1 l2 : List α) : (ite c l1 l2).filterMap f = ite c (l1.filterMap f) (l2.filterMap f) := by
  split <;> rfl

/-- The PVID side effect of the write-back on an add with the PVID flag: the
port PVID register field ends up equal to the resolved slot index, and the
PVID register is written exactly when the resolved index differs from the
port's current PVID slot index. -/
theorem vlanmcWriteBack_pvid (port idx : Nat) (newEntry : List Nat) (s : Chip)
    (hport : port < 11) (hidx : idx < 32) (hlen : newEntry.length = 4) :
    pvidIdxOf (vlanmcWriteBack port true true idx newEntry s).1 port = idx ∧
    (Ev.regw (pvidCtrlReg port) ∈ (vlanmcWriteBack port true true idx newEntry s).2 ↔
      idx ≠ pvidIdxOf s port) := by
  have h1 : ∀ (s2 : Chip) (v : Nat),
      pvidIdxOf (wreg s2 (aftReg port) v) port = pvidIdxOf s2 port :=
    fun s2 v => pvidIdxOf_wreg_ne s2 _ v port (pvid_ne_aft port hport)
  have h2 : pvidIdxOf (bulkWrite s (mcConfReg idx) newEntry).1 port = pvidIdxOf s port :=
    pvidIdxOf_bulkWrite_lo newEntry s (mcConfReg idx) port (pvid_lt_mc idx port hport)
  have h3 : ∀ (s2 : Chip), pvidIdxOf (wreg s2 (pvidCtrlReg port)
      (updBits (s2.regs (pvidCtrlReg port)) (0xFF <<< pvidCtrlOff port)
        ((idx <<< pvidCtrlOff port) &&& (0xFF <<< pvidCtrlOff port)))) port = idx := by
    intro s2
    rw [pvidIdxOf_wreg_self]
    exact and_0xFF_of_lt (by omega)
  have hpw : Ev.regw (pvidCtrlReg port) ∉ (bulkWrite s (mcConfReg idx) newEntry).2 := by
    rw [bulkWrite_events]
    simp only [List.mem_map, List.mem_range, not_exists]
    intro i hcon
    rcases hcon with ⟨hi, hEq⟩
    injection hEq with hEq2
    have h5 := pvid_lt_mc idx port hport
    omega
  have hne : (Ev.regw (pvidCtrlReg port)) ≠ (Ev.regw (aftReg port)) := by
    intro h
    injection h with h5
    exact pvid_ne_aft port hport h5
  constructor
  · by_cases hI : idx = pvidIdxOf s port
    · simp [vlanmcWriteBack, fst_ite, snd_ite, pvidIdxOf_ite, h1, h3, hI]
      exact hI ▸ h2
    · simp [vlanmcWriteBack, fst_ite, snd_ite, pvidIdxOf_ite, h1, h2, h3, hI]
  · by_cases hI : idx = pvidIdxOf s port
    · simp [vlanmcWriteBack, fst_ite, snd_ite, mem_ite_list, h1, h3, hI, hne]
      exact hI ▸ hpw
    · simp [vlanmcWriteBack, fst_ite, snd_ite, mem_ite_list, h1, h2, h3, hI, hpw, hne]

theorem addRank_mc (idx k : Nat) (hidx : idx < 32) (hk : k < 4) :
    addRank (Ev.regw (mcConfReg idx + k)) = some 0 := by
  simp only [addRank, mcConfReg]
  rw [if_pos (by omega)]

theorem claimRank_mc (idx k : Nat) (hidx : idx < 32) (hk : k < 4) :
    claimRank (Ev.regw (mcConfReg idx + k)) = some 1 := by
  simp only [claimRank, mcConfReg]
  rw [if_pos (by omega)]

theorem addRank_pvid (port : Nat) (hport : port < 11) :
    addRank (Ev.regw (pvidCtrlReg port)) = some 1 := by
  simp only [addRank, pvidCtrlReg]
  rw [if_neg (by omega), if_pos (by omega)]

theorem addRank_aft (port : Nat) (hport : port < 11) :
    addRank (Ev.regw (aftReg port)) = some 2 := by
  simp only [addRank, aftReg]
  rw [if_neg (by omega), if_neg (by omega), if_pos (by omega)]

theorem claimRank_pvid (port : Nat) (hport : port < 11) :
    claimRank (Ev.regw (pvidCtrlReg port)) = some 2 := by
  simp only [claimRank, pvidCtrlReg]
  rw [if_neg (by omega), if_pos (by omega)]

theorem claimRank_aft (port : Nat) (hport : port < 11) :
    claimRank (Ev.regw (aftReg port)) = some 2 := by
  simp only [claimRank, aftReg]
  rw [if_neg (by omega), if_pos (by omega)]

theorem bulkWrite_filterMap_addRank (s : Chip) (idx : Nat) (l : List Nat)
    (hidx : idx < 32) (hlen : l.length = 4) :
    ((bulkWrite s (mcConfReg idx) l).2).filterMap addRank = [0, 0, 0, 0] := by
  rw [bulkWrite_events, hlen]
  have h4 : List.range 4 = [0, 1, 2, 3] := rfl
  have ha0 : addRank (Ev.regw (mcConfReg idx)) = some 0 := by
    simpa using addRank_mc idx 0 hidx (by omega)
  rw [h4]
  simp [List.filterMap_cons, ha0, addRank_mc idx 1 hidx (by omega),
    addRank_mc idx 2 hidx (by omega), addRank_mc idx 3 hidx (by omega)]

theorem bulkWrite_filterMap_claimRank (s : Chip) (idx : Nat) (l : List Nat)
    (hidx : idx < 32) (hlen : l.length = 4) :
    ((bulkWrite s (mcConfReg idx) l).2).filterMap claimRank = [1, 1, 1, 1] := by
  rw [bulkWrite_events, hlen]
  have h4 : List.range 4 = [0, 1, 2, 3] := rfl
  have hc0 : claimRank (Ev.regw (mcConfReg idx)) = some 1 := by
    simpa using claimRank_mc idx 0 hidx (by omega)
  rw [h4]
  simp [List.filterMap_cons, hc0, claimRank_mc idx 1 hidx (by omega),
    claimRank_mc idx 2 hidx (by omega), claimRank_mc idx 3 hidx (by omega)]

/-- Ranked trace of the write-back on an add: the four MC slot writes (rank
0), then possibly the PVID write (rank 1), then possibly the frame-type write
(rank 2). -/
theorem vlanmcWriteBack_filterMap_addRank (port : Nat) (pvidf : Bool) (idx : Nat)
    (newEntry : List Nat) (s : Chip) (hport : port < 11) (hidx : idx < 32)
    (hlen : newEntry.length = 4) :
    ((vlanmcWriteBack port pvidf true idx newEntry s).2).filterMap addRank ∈
      [[0, 0, 0, 0], [0, 0, 0, 0, 1], [0, 0, 0, 0, 2], [0, 0, 0, 0, 1, 2]] := by
  have hmc := bulkWrite_filterMap_addRank s idx newEntry hidx hlen
  rcases eq_or_ne idx (pvidIdxOf s port) with hI | hI
  · have hC : (idx ≠ pvidIdxOf s port) = False := by simp [hI]
    by_cases hA : aftOf s port = 1 <;> cases pvidf <;>
      simp [vlanmcWriteBack, fst_ite, snd_ite, filterMap_ite, hmc, hC, hA,
        addRank_pvid port hport, addRank_aft port hport]
  · have hC : (idx ≠ pvidIdxOf s port) = True := by simp [hI]
    by_cases hA : aftOf s port = 1 <;> cases pvidf <;>
      simp [vlanmcWriteBack, fst_ite, snd_ite, filterMap_ite, hmc, hC, hA,
        addRank_pvid port hport, addRank_aft port hport]

/-- Ranked trace of the write-back on a delete, in the claimed order: the
four MC slot writes (rank 1), then possibly the frame-type write (rank 2);
no PVID write occurs on a delete. -/
theorem vlanmcWriteBack_filterMap_claimRank (port : Nat) (pvidf : Bool) (idx : Nat)
    (newEntry : List Nat) (s : Chip) (hport : port < 11) (hidx : idx < 32)
    (hlen : newEntry.length = 4) :
    ((vlanmcWriteBack port pvidf false idx newEntry s).2).filterMap claimRank ∈
      [[1, 1, 1, 1], [1, 1, 1, 1, 2]] := by
  have hmc := bulkWrite_filterMap_claimRank s idx newEntry hidx hlen
  by_cases hI : pvidIdxOf s port = idx <;>
    by_cases hA : aftOf s port = 0 <;>
    cases pvidf <;>
      simp [vlanmcWriteBack, fst_ite, snd_ite, filterMap_ite, hmc, hI, hA,
        claimRank_aft port hport]

theorem vlanmc_apply_filterMap_addRank (port vid : Nat) (pvidf : Bool)
    (cpu idx : Nat) (entry : List Nat) (v4kmem : Nat) (s : Chip) (evPre : List Ev)
    (hport : port < 11) (hidx : idx < 32) (hpre : evPre.filterMap addRank = []) :
    ((vlanmc_apply port vid pvidf true cpu idx entry v4kmem s evPre).2.2).filterMap
      addRank ∈ [[0, 0, 0, 0], [0, 0, 0, 0, 1], [0, 0, 0, 0, 2], [0, 0, 0, 0, 1, 2]] := by
  have h := vlanmcWriteBack_filterMap_addRank port pvidf idx
    (vlanmcNewEntry port vid true cpu entry v4kmem) s hport hidx
    (vlanmcNewEntry_length port vid true cpu entry v4kmem)
  simpa [vlanmc_apply, List.filterMap_append, hpre] using h

theorem vlanmc_apply_filterMap_claimRank (port vid : Nat) (pvidf : Bool)
    (cpu idx : Nat) (entry : List Nat) (v4kmem : Nat) (s : Chip) (evPre : List Ev)
    (hport : port < 11) (hidx : idx < 32) (hpre : evPre.filterMap claimRank = []) :
    ((vlanmc_apply port vid pvidf false cpu idx entry v4kmem s evPre).2.2).filterMap
      claimRank ∈ [[1, 1, 1, 1], [1, 1, 1, 1, 2]] := by
  have h := vlanmcWriteBack_filterMap_claimRank port pvidf idx
    (vlanmcNewEntry port vid false cpu entry v4kmem) s hport hidx
    (vlanmcNewEntry_length port vid false cpu entry v4kmem)
  simpa [vlanmc_apply, List.filterMap_append, hpre] using h

theorem vlanmc_apply_pvid (port vid : Nat) (cpu idx : Nat) (entry : List Nat)
    (v4kmem : Nat) (s : Chip) (evPre : List Ev) (hport : port < 11) (hidx : idx < 32)
    (hpre : Ev.regw (pvidCtrlReg port) ∉ evPre) :
    pvidIdxOf (vlanmc_apply port vid true true cpu idx entry v4kmem s evPre).2.1 port = idx ∧
    (Ev.regw (pvidCtrlReg port) ∈
        (vlanmc_apply port vid true true cpu idx entry v4kmem s evPre).2.2 ↔
      idx ≠ pvidIdxOf s port) := by
  have h := vlanmcWriteBack_pvid port idx
    (vlanmcNewEntry port vid true cpu entry v4kmem) s hport hidx
    (vlanmcNewEntry_length port vid true cpu entry v4kmem)
  refine ⟨h.1, ?_⟩
  have hsplit : (vlanmc_apply port vid true true cpu idx entry v4kmem s evPre).2.2 =
      evPre ++ (vlanmcWriteBack port true true idx
        (vlanmcNewEntry port vid true cpu entry v4kmem) s).2 := rfl
  rw [hsplit]
  simp only [List.mem_append, h.2]
  constructor
  · intro h2
    rcases h2 with h2 | h2
    · exact absurd h2 hpre
    · exact h2
  · intro h2
    exact Or.inr h2

/-- Ranked write trace of a whole MC-side add: slot writes, then PVID, then
frame type (possibly empty on early exits). -/
theorem vlanmc_set_filterMap_addRank (port vid : Nat) (pvidf : Bool) (cpu : Nat)
    (s : Chip) (hport : port < 11) :
    ((rtl8365mb_vlanmc_set port vid pvidf true cpu s).2.2).filterMap addRank ∈
      [[], [0, 0, 0, 0], [0, 0, 0, 0, 1], [0, 0, 0, 0, 2], [0, 0, 0, 0, 1, 2]] := by
  by_cases hv : RTL8365MB_MAX_MC_VID < vid
  · simp [rtl8365mb_vlanmc_set, hv]
  · simp only [rtl8365mb_vlanmc_set, if_neg hv, RTL8365MB_TABLE_CVLAN]
    by_cases h32 : (mcScan s vid).1 = 32
    · rw [if_pos h32]
      cases hpv : pvidf with
      | false => simp
      | true =>
        rw [if_neg (by simp)]
        by_cases hfu : (mcScan s vid).2 = none
        · rw [if_pos hfu]
          simp
        · rw [if_neg hfu]
          obtain ⟨fuIdx, hfu2⟩ := Option.ne_none_iff_exists'.mp hfu
          obtain ⟨hf1, hf2⟩ := mcScan_snd_lt s vid fuIdx hfu2
          simp only [hfu2, Option.getD_some]
          by_cases h4k : vid ≤ RTL8365MB_MAX_4K_VID
          · rw [if_pos h4k]
            have hvlt : vid < 2 ^ 14 := by
              simp only [RTL8365MB_MAX_4K_VID] at h4k
              omega
            have ht := table3_read_ret_trace vid [0, 0, 0, 0] s hvlt
            rw [if_neg (by simp [ht.1])]
            have hpre : ((rtl8365mb_table_access 3 RTL8365MB_TABLE_READ vid
                [0, 0, 0, 0] s).2.2.2).filterMap addRank = [] := by
              rw [ht.2]
              rfl
            have happly := vlanmc_apply_filterMap_addRank port vid true cpu fuIdx
              (rtl8365mb_table_access 3 RTL8365MB_TABLE_READ vid [0, 0, 0, 0] s).2.1
              (vlan4kMemberOfBuf (rtl8365mb_table_access 3 RTL8365MB_TABLE_READ vid
                [0, 0, 0, 0] s).2.1)
              (rtl8365mb_table_access 3 RTL8365MB_TABLE_READ vid [0, 0, 0, 0] s).2.2.1
              (rtl8365mb_table_access 3 RTL8365MB_TABLE_READ vid [0, 0, 0, 0] s).2.2.2
              hport (by omega) hpre
            simp only [List.mem_cons, List.not_mem_nil, or_false] at happly ⊢
            tauto
          · rw [if_neg h4k]
            have happly := vlanmc_apply_filterMap_addRank port vid true cpu fuIdx
              [0, 0, 0, 0] 0 s [] hport (by omega) rfl
            simp only [List.mem_cons, List.not_mem_nil, or_false] at happly ⊢
            tauto
    · rw [if_neg h32]
      have hle := mcScan_fst_le s vid
      have happly := vlanmc_apply_filterMap_addRank port vid pvidf cpu
        (mcScan s vid).1 (mcEntry s (mcScan s vid).1) 0 s [] hport (by omega) rfl
      simp only [List.mem_cons, List.not_mem_nil, or_false] at happly ⊢
      tauto

/-- Ranked write trace of a whole MC-side delete, in the claimed order: slot
writes then the frame-type write; the by-ID table is not written here and no
PVID write occurs. -/
theorem vlanmc_set_filterMap_claimRank (port vid : Nat) (pvidf : Bool) (cpu : Nat)
    (s : Chip) (hport : port < 11) :
    ((rtl8365mb_vlanmc_set port vid pvidf false cpu s).2.2).filterMap claimRank ∈
      [[], [1, 1, 1, 1], [1, 1, 1, 1, 2]] := by
  by_cases hv : RTL8365MB_MAX_MC_VID < vid
  · simp [rtl8365mb_vlanmc_set, hv]
  · simp only [rtl8365mb_vlanmc_set, if_neg hv, RTL8365MB_TABLE_CVLAN]
    by_cases h32 : (mcScan s vid).1 = 32
    · rw [if_pos h32]
      cases hpv : pvidf with
      | false => simp
      | true =>
        rw [if_neg (by simp)]
        by_cases hfu : (mcScan s vid).2 = none
        · rw [if_pos hfu]
          simp
        · rw [if_neg hfu]
          obtain ⟨fuIdx, hfu2⟩ := Option.ne_none_iff_exists'.mp hfu
          obtain ⟨hf1, hf2⟩ := mcScan_snd_lt s vid fuIdx hfu2
          simp only [hfu2, Option.getD_some]
          by_cases h4k : vid ≤ RTL8365MB_MAX_4K_VID
          · rw [if_pos h4k]
            have hvlt : vid < 2 ^ 14 := by
              simp only [RTL8365MB_MAX_4K_VID] at h4k
              omega
            have ht := table3_read_ret_trace vid [0, 0, 0, 0] s hvlt
            rw [if_neg (by simp [ht.1])]
            have hpre : ((rtl8365mb_table_access 3 RTL8365MB_TABLE_READ vid
                [0, 0, 0, 0] s).2.2.2).filterMap claimRank = [] := by
              rw [ht.2]
              rfl
            have happly := vlanmc_apply_filterMap_claimRank port vid true cpu fuIdx
              (rtl8365mb_table_access 3 RTL8365MB_TABLE_READ vid [0, 0, 0, 0] s).2.1
              (vlan4kMemberOfBuf (rtl8365mb_table_access 3 RTL8365MB_TABLE_READ vid
                [0, 0, 0, 0] s).2.1)
              (rtl8365mb_table_access 3 RTL8365MB_TABLE_READ vid [0, 0, 0, 0] s).2.2.1
              (rtl8365mb_table_access 3 RTL8365MB_TABLE_READ vid [0, 0, 0, 0] s).2.2.2
              hport (by omega) hpre
            simp only [List.mem_cons, List.not_mem_nil, or_false] at happly ⊢
            tauto
          · rw [if_neg h4k]
            have happly := vlanmc_apply_filterMap_claimRank port vid true cpu fuIdx
              [0, 0, 0, 0] 0 s [] hport (by omega) rfl
            simp only [List.mem_cons, List.not_mem_nil, or_false] at happly ⊢
            tauto
    · rw [if_neg h32]
      have hle := mcScan_fst_le s vid
      have happly := vlanmc_apply_filterMap_claimRank port vid pvidf cpu
        (mcScan s vid).1 (mcEntry s (mcScan s vid).1) 0 s [] hport (by omega) rfl
      simp only [List.mem_cons, List.not_mem_nil, or_false] at happly ⊢
      tauto

/-- Frame-type preservation across the 4K table read of the allocation path. -/
theorem aftOf_table3_read (vid : Nat) (val : List Nat) (s : Chip) (port : Nat) :
    aftOf (rtl8365mb_table_access 3 RTL8365MB_TABLE_READ vid val s).2.2.1 port =
      aftOf s port := by
  simp only [aftOf]
  rw [table3_read_regs_hi vid val s (aftReg port) (by simp only [aftReg]; omega)]

theorem pvidIdxOf_table3_read (vid : Nat) (val : List Nat) (s : Chip) (port : Nat) :
    pvidIdxOf (rtl8365mb_table_access 3 RTL8365MB_TABLE_READ vid val s).2.2.1 port =
      pvidIdxOf s port := by
  simp only [pvidIdxOf]
  rw [table3_read_regs_hi vid val s (pvidCtrlReg port) (by simp only [pvidCtrlReg]; omega)]

/-- C4: on every successful MC-side reconcile step, the accepted-frame-type
of the port changes to any-frame (0) exactly on an add with the PVID flag
while it was tagged-only (1), changes to tagged-only (1) exactly on a delete
whose resolved slot index equals the port's current PVID slot index while it
was any-frame (0), and is unchanged by every other membership change (in
particular by a non-PVID add). -/
theorem claim_C4_aft_flip (port vid : Nat) (pvidf inc : Bool) (cpu : Nat) (s : Chip)
    (hport : port < 11)
    (hok : (rtl8365mb_vlanmc_set port vid pvidf inc cpu s).1 = 0) :
    aftOf (rtl8365mb_vlanmc_set port vid pvidf inc cpu s).2.1 port =
      (if inc = false ∧ aftOf s port = 0 ∧
          mcResolvedIdx s vid pvidf = some (pvidIdxOf s port) then 1
       else if inc = true ∧ pvidf = true ∧ aftOf s port = 1 then 0
       else aftOf s port) := by
  have hbridge : ∀ (a p i : Nat),
      (a = 0 ∧ p = i) ↔ (a = 0 ∧ (some i : Option Nat) = some p) := by
    intro a p i
    constructor
    · rintro ⟨hb, hc⟩
      exact ⟨hb, by rw [hc]⟩
    · rintro ⟨hb, hc⟩
      injection hc with hc2
      exact ⟨hb, hc2.symm⟩
  by_cases hv : RTL8365MB_MAX_MC_VID < vid
  · simp [rtl8365mb_vlanmc_set, hv] at hok
  · simp only [rtl8365mb_vlanmc_set, if_neg hv, RTL8365MB_TABLE_CVLAN] at hok ⊢
    by_cases h32 : (mcScan s vid).1 = 32
    · rw [if_pos h32] at hok ⊢
      cases hpv : pvidf with
      | false =>
        subst hpv
        have hres : mcResolvedIdx s vid false = none := by
          simp [mcResolvedIdx, h32]
        simp [hres]
      | true =>
        subst hpv
        rw [if_neg (by simp)] at hok ⊢
        by_cases hfu : (mcScan s vid).2 = none
        · rw [if_pos hfu] at hok
          simp at hok
        · rw [if_neg hfu] at hok ⊢
          obtain ⟨fuIdx, hfu2⟩ := Option.ne_none_iff_exists'.mp hfu
          obtain ⟨hf1, hf2⟩ := mcScan_snd_lt s vid fuIdx hfu2
          have hres : mcResolvedIdx s vid true = some fuIdx := by
            simp [mcResolvedIdx, h32, hfu2]
          simp only [hfu2, Option.getD_some] at hok ⊢
          by_cases h4k : vid ≤ RTL8365MB_MAX_4K_VID
          · rw [if_pos h4k] at hok ⊢
            have hvlt : vid < 2 ^ 14 := by
              simp only [RTL8365MB_MAX_4K_VID] at h4k
              omega
            have ht := table3_read_ret_trace vid [0, 0, 0, 0] s hvlt
            rw [if_neg (by simp [ht.1])] at hok ⊢
            rw [vlanmc_apply_aft _ _ _ _ _ _ _ _ _ _ hport (by omega)]
            rw [aftOf_table3_read, pvidIdxOf_table3_read, hres]
            exact if_congr (and_congr_right fun _ => hbridge _ _ _) rfl
              (if_congr (by simp) rfl rfl)
          · rw [if_neg h4k] at hok ⊢
            rw [vlanmc_apply_aft _ _ _ _ _ _ _ _ _ _ hport (by omega)]
            rw [hres]
            exact if_congr (and_congr_right fun _ => hbridge _ _ _) rfl
              (if_congr (by simp) rfl rfl)
    · rw [if_neg h32] at hok ⊢
      have hle := mcScan_fst_le s vid
      have hres : mcResolvedIdx s vid pvidf = some (mcScan s vid).1 := by
        simp [mcResolvedIdx, h32]
      rw [vlanmc_apply_aft _ _ _ _ _ _ _ _ _ _ hport (by omega)]
      rw [hres]
      exact if_congr (and_congr_right fun _ => hbridge _ _ _) rfl rfl

/-- Witness for C4: a PVID add of VID 10 on port 2 of a fresh chip. -/
theorem claim_C4_aft_flip_witness :
    (2 : Nat) < 11 ∧
    (rtl8365mb_vlanmc_set 2 10 true true 0x100 freshChip).1 = 0 ∧
    aftOf (rtl8365mb_vlanmc_set 2 10 true true 0x100 freshChip).2.1 2 =
      (if (true : Bool) = false ∧ aftOf freshChip 2 = 0 ∧
          mcResolvedIdx freshChip 10 true = some (pvidIdxOf freshChip 2) then 1
       else if (true : Bool) = true ∧ (true : Bool) = true ∧ aftOf freshChip 2 = 1 then 0
       else aftOf freshChip 2) :=
  ⟨by decide, by decide,
    claim_C4_aft_flip 2 10 true true 0x100 freshChip (by decide) (by decide)⟩

/-- The PVID side effect of a successful MC-side add with the PVID flag: the
reconciler resolves a slot index for the VID, the port PVID field ends up
equal to it, and the PVID register is written exactly when it differed from
the port's current PVID slot index. -/
theorem vlanmc_set_pvid (port vid cpu : Nat) (s : Chip) (hport : port < 11)
    (hok : (rtl8365mb_vlanmc_set port vid true true cpu s).1 = 0) :
    ∃ idx, mcResolvedIdx s vid true = some idx ∧
      pvidIdxOf (rtl8365mb_vlanmc_set port vid true true cpu s).2.1 port = idx ∧
      (Ev.regw (pvidCtrlReg port) ∈
          (rtl8365mb_vlanmc_set port vid true true cpu s).2.2 ↔
        idx ≠ pvidIdxOf s port) := by
  by_cases hv : RTL8365MB_MAX_MC_VID < vid
  · simp [rtl8365mb_vlanmc_set, hv] at hok
  · simp only [rtl8365mb_vlanmc_set, if_neg hv, RTL8365MB_TABLE_CVLAN] at hok ⊢
    by_cases h32 : (mcScan s vid).1 = 32
    · rw [if_pos h32] at hok ⊢
      rw [if_neg (by simp)] at hok ⊢
      by_cases hfu : (mcScan s vid).2 = none
      · rw [if_pos hfu] at hok
        simp at hok
      · rw [if_neg hfu] at hok ⊢
        obtain ⟨fuIdx, hfu2⟩ := Option.ne_none_iff_exists'.mp hfu
        obtain ⟨hf1, hf2⟩ := mcScan_snd_lt s vid fuIdx hfu2
        have hres : mcResolvedIdx s vid true = some fuIdx := by
          simp [mcResolvedIdx, h32, hfu2]
        simp only [hfu2, Option.getD_some] at hok ⊢
        refine ⟨fuIdx, hres, ?_⟩
        by_cases h4k : vid ≤ RTL8365MB_MAX_4K_VID
        · rw [if_pos h4k] at hok ⊢
          have hvlt : vid < 2 ^ 14 := by
            simp only [RTL8365MB_MAX_4K_VID] at h4k
            omega
          have ht := table3_read_ret_trace vid [0, 0, 0, 0] s hvlt
          rw [if_neg (by simp [ht.1])] at hok ⊢
          have hpre : Ev.regw (pvidCtrlReg port) ∉
              (rtl8365mb_table_access 3 RTL8365MB_TABLE_READ vid
                [0, 0, 0, 0] s).2.2.2 := by
            rw [ht.2]
            simp [pvidCtrlReg]
            omega
          have h := vlanmc_apply_pvid port vid cpu fuIdx
            (rtl8365mb_table_access 3 RTL8365MB_TABLE_READ vid [0, 0, 0, 0] s).2.1
            (vlan4kMemberOfBuf
              (rtl8365mb_table_access 3 RTL8365MB_TABLE_READ vid [0, 0, 0, 0] s).2.1)
            (rtl8365mb_table_access 3 RTL8365MB_TABLE_READ vid [0, 0, 0, 0] s).2.2.1
            (rtl8365mb_table_access 3 RTL8365MB_TABLE_READ vid [0, 0, 0, 0] s).2.2.2
            hport (by omega) hpre
          rw [pvidIdxOf_table3_read] at h
          exact ⟨h.1, h.2⟩
        · rw [if_neg h4k] at hok ⊢
          have h := vlanmc_apply_pvid port vid cpu fuIdx [0, 0, 0, 0] 0 s []
            hport (by omega) (by simp)
          exact ⟨h.1, h.2⟩
    · rw [if_neg h32] at hok ⊢
      have hge := mcScan_fst_ge s vid
      have hle := mcScan_fst_le s vid
      have hres : mcResolvedIdx s vid true = some (mcScan s vid).1 := by
        simp [mcResolvedIdx, h32]
      refine ⟨(mcScan s vid).1, hres, ?_⟩
      have h := vlanmc_apply_pvid port vid cpu (mcScan s vid).1 (mcEntry s (mcScan s vid).1)
        0 s [] hport (by omega) (by simp)
      exact ⟨h.1, h.2⟩

/-- C5: on every successful MC-side add with the PVID flag, the port PVID
field ends up equal to the resolved slot index and the PVID register is
written exactly when that index differs from the port's current PVID slot
index; concretely, Add(port 2, vid 10, untagged=false, pvid=true) on a fresh
chip succeeds, sets port 2's PVID slot index to the allocated slot 1, sets
member bit 2 and leaves untag bit 2 clear in the by-ID entry for VID 10, and
makes port 2 accept any frame type. -/
theorem claim_C5_pvid :
    (∀ (port vid cpu : Nat) (s : Chip), port < 11 →
        (rtl8365mb_vlanmc_set port vid true true cpu s).1 = 0 →
        ∃ idx, mcResolvedIdx s vid true = some idx ∧
          pvidIdxOf (rtl8365mb_vlanmc_set port vid true true cpu s).2.1 port = idx ∧
          (Ev.regw (pvidCtrlReg port) ∈
              (rtl8365mb_vlanmc_set port vid true true cpu s).2.2 ↔
            idx ≠ pvidIdxOf s port)) ∧
    (rtl8365mb_vlan_add 2 10 false true 0x100 freshChip).1 = 0 ∧
    pvidIdxOf (rtl8365mb_vlan_add 2 10 false true 0x100 freshChip).2.1 2 = 1 ∧
    (member4kOf (rtl8365mb_vlan_add 2 10 false true 0x100 freshChip).2.1 10).testBit 2
      = true ∧
    (untag4kOf (rtl8365mb_vlan_add 2 10 false true 0x100 freshChip).2.1 10).testBit 2
      = false ∧
    aftOf (rtl8365mb_vlan_add 2 10 false true 0x100 freshChip).2.1 2 = 0 :=
  ⟨vlanmc_set_pvid, by decide, by decide, by decide, by decide, by decide⟩

/-- Witness for C5: the generic PVID side effect instantiated at the same
concrete add. -/
theorem claim_C5_pvid_witness :
    (2 : Nat) < 11 ∧
    (rtl8365mb_vlanmc_set 2 10 true true 0x100 freshChip).1 = 0 ∧
    (∃ idx, mcResolvedIdx freshChip 10 true = some idx ∧
      pvidIdxOf (rtl8365mb_vlanmc_set 2 10 true true 0x100 freshChip).2.1 2 = idx ∧
      (Ev.regw (pvidCtrlReg 2) ∈
          (rtl8365mb_vlanmc_set 2 10 true true 0x100 freshChip).2.2 ↔
        idx ≠ pvidIdxOf freshChip 2)) :=
  ⟨by decide, by decide, claim_C5_pvid.1 2 10 0x100 freshChip (by decide) (by decide)⟩

/-- A chip whose 31 non-reserved VLAN MC slots hold the distinct non-zero
EVIDs 1..31 (slot i holds EVID i in its fourth configuration word). -/
def mcFullChip : Chip :=
  { regs := fun a =>
      if 0x728 ≤ a ∧ a ≤ 0x7A7 ∧ (a - 0x728) % 4 = 3 then (a - 0x728) / 4 else 0,
    mem := fun _ _ _ => 0 }

/-- Counterexample to C6: with all 31 non-reserved slots occupied by distinct
non-zero VIDs different from the requested VID 100, a PVID add fails with
-EINVAL, which classifies as invalid-argument, not resource-exhausted (the
state and the write trace confirm the by-ID table is untouched). -/
theorem claim_C6_counterexample :
    rtl8365mb_vlan_add 2 100 false true 0x100 mcFullChip = (-22, mcFullChip, []) ∧
    errKind (-22) = ErrKind.invalidArgument ∧
    ErrKind.invalidArgument ≠ ErrKind.resourceExhausted :=
  ⟨rfl, rfl, by decide⟩

/-- C6 amended: when the requested VID occupies no slot and every
non-reserved slot holds a non-zero EVID different from it, the MC-side add
with the PVID flag fails with -EINVAL (invalid-argument, not
resource-exhausted), returns the state unchanged and writes nothing. -/
theorem claim_C6_amended (port vid cpu : Nat) (s : Chip)
    (hv : vid ≤ RTL8365MB_MAX_MC_VID)
    (hall : ∀ k, k < 32 → 1 ≤ k → mcEvid s k ≠ vid ∧ mcEvid s k ≠ 0) :
    rtl8365mb_vlanmc_set port vid true true cpu s = (-22, s, []) ∧
    errKind (rtl8365mb_vlanmc_set port vid true true cpu s).1 =
      ErrKind.invalidArgument := by
  have hscan : mcScan s vid = (32, none) := by
    have h := mcScanGo_full s vid 31 1 (fun k hk1 hk2 => hall k (by omega) hk1)
    simpa [mcScan] using h
  have h1 : rtl8365mb_vlanmc_set port vid true true cpu s = (-22, s, []) := by
    simp only [rtl8365mb_vlanmc_set, if_neg (not_lt.mpr hv), hscan]
    simp
  refine ⟨h1, ?_⟩
  rw [h1]
  rfl

/-- Witness for the amended C6 on the fully occupied chip. -/
theorem claim_C6_amended_witness :
    (100 ≤ RTL8365MB_MAX_MC_VID ∧
      ∀ k, k < 32 → 1 ≤ k → mcEvid mcFullChip k ≠ 100 ∧ mcEvid mcFullChip k ≠ 0) ∧
    rtl8365mb_vlanmc_set 2 100 true true 0x100 mcFullChip = (-22, mcFullChip, []) ∧
    errKind (rtl8365mb_vlanmc_set 2 100 true true 0x100 mcFullChip).1 =
      ErrKind.invalidArgument :=
  ⟨⟨by decide, by decide⟩,
    claim_C6_amended 2 100 0x100 mcFullChip (by decide) (by decide)⟩

/-- Trace of a by-ID (4K) table update for an in-range VID: it succeeds and
its only ranked write event is the CVLAN table write commit (rank 3 in the
add order, rank 0 in the claimed order). -/
theorem vlan4k_set_trace (port vid : Nat) (untagged inc : Bool) (s : Chip)
    (h4k : vid ≤ RTL8365MB_MAX_4K_VID) :
    (rtl8365mb_vlan4k_set port vid untagged inc s).1 = 0 ∧
    ((rtl8365mb_vlan4k_set port vid untagged inc s).2.2).filterMap addRank = [3] ∧
    ((rtl8365mb_vlan4k_set port vid untagged inc s).2.2).filterMap claimRank = [0] := by
  have hvlt : vid < 2 ^ 14 := by
    simp only [RTL8365MB_MAX_4K_VID] at h4k
    omega
  have ht := table3_read_ret_trace vid [0, 0, 0] s hvlt
  simp only [rtl8365mb_vlan4k_set, if_neg (not_lt.mpr h4k), RTL8365MB_TABLE_CVLAN]
  rw [if_neg (by simp [ht.1])]
  refine ⟨(table3_write_ret_trace vid _ _ _ _ hvlt).1, ?_, ?_⟩ <;>
    rw [List.filterMap_append, ht.2, (table3_write_ret_trace vid _ _ _ _ hvlt).2] <;>
    decide

/-- Counterexample to C1: on the concrete PVID add of VID 10 on port 2 of a
fresh chip, the ranked writes in spec order (4K commit rank 0, MC slot rank
1, PVID/frame-type rank 2) come out as [1, 1, 1, 1, 2, 0]: the four MC slot
writes and the PVID write all happen before the by-ID (4K) table commit, so
the claimed by-ID-first order is violated. -/
theorem claim_C1_counterexample :
    List.filterMap claimRank (rtl8365mb_vlan_add 2 10 false true 0x100 freshChip).2.2 =
      [1, 1, 1, 1, 2, 0] ∧
    writeOrderOK claimRank (rtl8365mb_vlan_add 2 10 false true 0x100 freshChip).2.2 =
      false := by
  constructor
  · rfl
  · decide

/-- C1 amended to the order the code actually uses: an add performs the MC
slot writes, then the PVID write, then the frame-type write, and the by-ID
(4K) table commit last; a delete performs the by-ID commit first, then the
MC slot writes, then the frame-type write. -/
theorem claim_C1_amended (port vid cpu : Nat) (untagged pvidf : Bool) (s : Chip)
    (hport : port < 11) (h4k : vid ≤ RTL8365MB_MAX_4K_VID) :
    writeOrderOK addRank (rtl8365mb_vlan_add port vid untagged pvidf cpu s).2.2 = true ∧
    writeOrderOK claimRank (rtl8365mb_vlan_del port vid untagged pvidf cpu s).2.2 = true := by
  constructor
  · simp only [rtl8365mb_vlan_add]
    by_cases hr1 : (rtl8365mb_vlanmc_set port vid pvidf true cpu s).1 ≠ 0
    · rw [if_pos hr1]
      have h := vlanmc_set_filterMap_addRank port vid pvidf cpu s hport
      simp only [List.mem_cons, List.not_mem_nil, or_false] at h
      rcases h with h | h | h | h | h <;>
        · simp only [writeOrderOK, h]
          decide
    · rw [if_neg hr1]
      have h4 := vlan4k_set_trace port vid untagged true
        (rtl8365mb_vlanmc_set port vid pvidf true cpu s).2.1 h4k
      rw [if_neg (by simp [h4.1])]
      have h := vlanmc_set_filterMap_addRank port vid pvidf cpu s hport
      simp only [List.mem_cons, List.not_mem_nil, or_false] at h
      rcases h with h | h | h | h | h <;>
        · simp only [writeOrderOK, List.filterMap_append, h, h4.2.1]
          decide
  · simp only [rtl8365mb_vlan_del]
    have h4 := vlan4k_set_trace port vid untagged false s h4k
    have h := vlanmc_set_filterMap_claimRank port vid pvidf cpu
      (rtl8365mb_vlan4k_set port vid untagged false s).2.1 hport
    simp only [List.mem_cons, List.not_mem_nil, or_false] at h
    rcases h with h | h | h <;>
      · simp only [writeOrderOK, List.filterMap_append, h, h4.2.2]
        decide

/-- Witness for the amended C1 at the concrete add and delete of VID 10 on
port 2 of a fresh chip. -/
theorem claim_C1_amended_witness :
    ((2 : Nat) < 11 ∧ (10 : Nat) ≤ RTL8365MB_MAX_4K_VID) ∧
    writeOrderOK addRank (rtl8365mb_vlan_add 2 10 false true 0x100 freshChip).2.2 = true ∧
    writeOrderOK claimRank (rtl8365mb_vlan_del 2 10 false true 0x100 freshChip).2.2 = true :=
  ⟨⟨by decide, by decide⟩,
    claim_C1_amended 2 10 0x100 false true freshChip (by decide) (by decide)⟩

end Rtl8365mb
